import Mathlib

/-!
# Verification of `dbusmonitor.py` (velib_python)

A shallow embedding of the `DbusMonitor` class from `dbusmonitor.py`.

Python dictionaries are modelled as association lists (`List (String × α)`)
with insert-or-replace update, preserving insertion order.  Python values
flowing through the cache are modelled by the inductive type `Value`
(`VNull` is Python `None`; integers and strings are the value kinds the
claims exercise — floating point is out of scope).  Python exceptions are
modelled with `Except PyErr`; where the original code mutates `self` before
raising, the model returns the post-mutation state alongside the raised
error so that the persistent effects of a partially-executed method remain
observable.

The D-Bus connection, `VeDbusItemImport` and `unwrap_dbus_value` live
outside the repository snapshot (only `dbusmonitor.py` and a test fixture
are present); per the specification they are external collaborators, so
they are modelled as an oracle (`Bus`) below.
-/

set_option autoImplicit false

namespace DbusMonitor

/-- Association-list lookup, modelling Python `dict.get` / `dict[...]`. -/
def lookupA {α : Type} (l : List (String × α)) (k : String) : Option α :=
  match l with
  | [] => none
  | (k', v) :: t => if k' = k then some v else lookupA t k

/-- Association-list insert-or-replace, modelling Python `dict[k] = v`:
a present key is overwritten in place, a new key is appended. -/
def updateA {α : Type} (l : List (String × α)) (k : String) (v : α) :
    List (String × α) :=
  match l with
  | [] => [(k, v)]
  | (k', v') :: t => if k' = k then (k, v) :: t else (k', v') :: updateA t k v

/-- Association-list delete, modelling Python `del d[k]`. -/
def eraseA {α : Type} (l : List (String × α)) (k : String) :
    List (String × α) :=
  match l with
  | [] => []
  | (k', v') :: t => if k' = k then t else (k', v') :: eraseA t k

/-- A Python value as it appears in the monitor's cache: `None`, an
integer, or a string. -/
inductive Value where
  | VNull : Value
  | VInt : Int → Value
  | VStr : String → Value
  deriving DecidableEq

/-- The four `whenToLog` category labels, in the order of the
`whentologoptions` list in `scan_dbus_service`. -/
inductive Category where
  | configChange
  | onIntervalAlwaysAndOnEvent
  | onIntervalOnlyWhenChanged
  | onIntervalAlways
  deriving DecidableEq

/-- The static options dictionary attached to a schema path:
`{'code': ..., 'whenToLog': ..., 'precision': ...}`.  `whenToLog` may be
`None` (modelled `none`); the `assert` in `scan_dbus_service` admits
exactly `None` or one of the four labels, which the `Option Category`
type enforces.  `precision` is absent (`none`) or a natural number. -/
structure Options where
  code : String
  whenToLog : Option Category
  precision : Option Nat
  deriving DecidableEq

/-- One entry of `self.serviceIds`: `{'name': serviceName, 'paths': {}}`,
where `paths` maps an object path to the Python list `[value, options]`. -/
structure SIdEntry where
  name : String
  paths : List (String × (Value × Options))
  deriving DecidableEq

/-- One entry of `self.items` (a tracked service): the transient bus
identity, the device instance, the four `whenToLog` buckets built during
the scan, and the signal-match handle from `add_signal_receiver`. -/
structure Service where
  serviceId : String
  deviceInstance : Int
  configChange : List String
  onIntervalAlwaysAndOnEvent : List String
  onIntervalOnlyWhenChanged : List String
  onIntervalAlways : List String
  matchHandle : Nat
  deriving DecidableEq

/-- Models `service[whentolog]` — the bucket of a service for a category. -/
def Service.bucket (s : Service) : Category → List String
  | .configChange => s.configChange
  | .onIntervalAlwaysAndOnEvent => s.onIntervalAlwaysAndOnEvent
  | .onIntervalOnlyWhenChanged => s.onIntervalOnlyWhenChanged
  | .onIntervalAlways => s.onIntervalAlways

/-- Models `service[whentolog].append(path)`. -/
def Service.appendBucket (s : Service) (c : Category) (p : String) : Service :=
  match c with
  | .configChange => { s with configChange := s.configChange ++ [p] }
  | .onIntervalAlwaysAndOnEvent =>
      { s with onIntervalAlwaysAndOnEvent := s.onIntervalAlwaysAndOnEvent ++ [p] }
  | .onIntervalOnlyWhenChanged =>
      { s with onIntervalOnlyWhenChanged := s.onIntervalOnlyWhenChanged ++ [p] }
  | .onIntervalAlways => { s with onIntervalAlways := s.onIntervalAlways ++ [p] }

/-- The mutable state of a `DbusMonitor` object: `self.items` and
`self.serviceIds`. -/
structure MonState where
  items : List (String × Service)
  serviceIds : List (String × SIdEntry)
  deriving DecidableEq

/-- A D-Bus exception, identified by the name `e.get_dbus_name()`
returns. -/
structure BusErr where
  dbusName : String
  deriving DecidableEq

/-- A raised Python exception, at the granularity the monitor code
distinguishes. -/
inductive PyErr where
  | dbusException : BusErr → PyErr
  | valueError : PyErr
  | keyError : PyErr
  | attributeError : PyErr
  | assertionError : PyErr
  | typeError : PyErr
  deriving DecidableEq

/-- The eventual outcome of an asynchronous `GetValue` call: the reply
handler is invoked with a value, or the error handler is invoked. -/
inductive FetchOutcome where
  | success : Value → FetchOutcome
  | failure : FetchOutcome
  deriving DecidableEq

/-- An asynchronous `GetValue` call issued by a scan and not yet
delivered: its completion will invoke `_set_value_callback` (on
`success`) or `_set_value_error` (on `failure`) with the recorded
arguments. -/
structure Pending where
  serviceId : String
  path : String
  options : Options
  outcome : FetchOutcome
  deriving DecidableEq

/-- Modelled from the spec: the externally supplied bus connection and
remote property handles (`dbus.SessionBus`/`SystemBus`,
`VeDbusItemImport` — their code is not part of this snapshot).  The core
needs: resolve a name to its transient bus identity (`get_name_owner`),
read the `/DeviceInstance` property synchronously (`VeDbusItemImport(...)
.get_value()`, which yields `None` when the property is absent), issue an
asynchronous `GetValue` (`call_async`, which either raises a
`dbus.exceptions.DBusException` synchronously or succeeds with some
eventual `FetchOutcome`), and register a signal receiver
(`add_signal_receiver`, returning a match handle). -/
structure Bus where
  nameOwner : String → Except BusErr String
  deviceInstanceValue : String → Except BusErr Value
  callGetValueAsync : String → String → Except BusErr FetchOutcome
  addSignalReceiver : String → Except BusErr Nat

instance {ε α : Type} [DecidableEq ε] [DecidableEq α] : DecidableEq (Except ε α) :=
  fun a b =>
    match a, b with
    | .ok x, .ok y => if h : x = y then isTrue (by rw [h]) else isFalse (by simp [h])
    | .error x, .error y => if h : x = y then isTrue (by rw [h]) else isFalse (by simp [h])
    | .ok _, .error _ => isFalse (by simp)
    | .error _, .ok _ => isFalse (by simp)

/-- Python `str.split('.')` on the character list (structural recursion,
so that concrete runs reduce definitionally; `String.splitOn` itself is
defined by well-founded recursion). -/
def splitDotAux : List Char → List Char → List String
  | [], acc => [String.mk acc.reverse]
  | c :: t, acc =>
    if c = '.' then String.mk acc.reverse :: splitDotAux t []
    else splitDotAux t (c :: acc)

/-- Python `serviceName.split('.')`. -/
def splitDot (s : String) : List String := splitDotAux s.data []

/-- Python `'.'.join(parts)`. -/
def joinDot : List String → String
  | [] => ""
  | [x] => x
  | x :: t => x ++ "." ++ joinDot t

/-- Models `'.'.join(serviceName.split('.')[0:3])` — the 3-level service-class
prefix used to look a service up in the schema tree. -/
def serviceClass (serviceName : String) : String :=
  joinDot ((splitDot serviceName).take 3)

/-- The D-Bus error names the scan's `except` clause treats as
"service vanished mid-scan". -/
def catchableBusErr (e : BusErr) : Bool :=
  e.dbusName = "org.freedesktop.DBus.Error.ServiceUnknown" ||
    e.dbusName = "org.freedesktop.DBus.Error.Disconnected"

/-- ASCII whitespace stripped by Python's `int(str)`. -/
def isSpaceChar (c : Char) : Bool :=
  c = ' ' || c = '\t' || c = '\n' || c = '\r'

/-- Python `int(str)` on a decimal string literal: optional surrounding
whitespace, optional sign, at least one digit; anything else raises
`ValueError`.  (Exotic numerals — unicode digits, other whitespace —
are outside the model.) -/
def pyStrToInt (s : String) : Option Int :=
  let cs := ((s.data.dropWhile isSpaceChar).reverse.dropWhile isSpaceChar).reverse
  let core := match cs with
    | '-' :: r => r
    | '+' :: r => r
    | r => r
  let neg : Bool := match cs with
    | '-' :: _ => true
    | _ => false
  if core ≠ [] ∧ core.all Char.isDigit then
    let n : Nat := core.foldl (fun a c => a * 10 + (c.toNat - 48)) 0
    some (if neg then -(n : Int) else (n : Int))
  else none

/-- Models `0 if device_instance is None else int(device_instance)`
(lines 143–145): `None` defaults to 0, an int is kept, a string is
parsed — `int(...)` raises `ValueError` on an unparseable value. -/
def pyInt0 : Value → Except PyErr Int
  | .VNull => .ok 0
  | .VInt n => .ok n
  | .VStr s =>
    match pyStrToInt s with
    | some n => .ok n
    | none => .error .valueError

/-- Modelled from the spec: `ve_utils.unwrap_dbus_value` (not in this
snapshot) converts a D-Bus-typed value into the plain Python value; on
the shallow `Value` domain it is the identity. -/
def unwrapDbusValue (v : Value) : Value := v

/-- Models `_set_value_callback` (lines 97–98): the reply handler of an
asynchronous `GetValue`.  It indexes `self.serviceIds[serviceId]`
directly, so a completion for a bus identity that is no longer tracked
raises `KeyError`. -/
def set_value_callback (st : MonState) (serviceId path : String)
    (options : Options) (value : Value) : Except PyErr MonState :=
  match lookupA st.serviceIds serviceId with
  | none => .error .keyError
  | some e =>
    let e' : SIdEntry := { e with paths := updateA e.paths path (unwrapDbusValue value, options) }
    .ok { st with serviceIds := updateA st.serviceIds serviceId e' }

/-- Models `_set_value_error` (lines 100–101): the error handler of an
asynchronous `GetValue`; stores `[None, options]`.  Like the reply
handler it indexes `self.serviceIds[serviceId]` directly. -/
def set_value_error (st : MonState) (serviceId path : String)
    (options : Options) : Except PyErr MonState :=
  match lookupA st.serviceIds serviceId with
  | none => .error .keyError
  | some e =>
    let e' : SIdEntry := { e with paths := updateA e.paths path (Value.VNull, options) }
    .ok { st with serviceIds := updateA st.serviceIds serviceId e' }

/-- Deliver an outstanding fetch completion: the reply handler on
success, the error handler on failure. -/
def applyPending (st : MonState) (pd : Pending) : Except PyErr MonState :=
  match pd.outcome with
  | .success v => set_value_callback st pd.serviceId pd.path pd.options v
  | .failure => set_value_error st pd.serviceId pd.path pd.options

/-- The cache value a completion writes: the fetched value on success,
`None` on failure. -/
def pendingValue (pd : Pending) : Value :=
  match pd.outcome with
  | .success v => unwrapDbusValue v
  | .failure => .VNull

/-- The path loop of `scan_dbus_service` (lines 150–170).  For each
schema path: try `call_async`; a synchronous `DBusException` stores
`[None, options]` through the `service_id_dict` alias of
`self.serviceIds[serviceId]`, success leaves an outstanding completion.
Then, when `options['whenToLog']` is truthy, the path is appended to
that category's bucket.  The model threads the aliased `paths`
dictionary explicitly. -/
def scanPaths (bus : Bus) (serviceName serviceId : String) :
    List (String × Options) → Service → List (String × (Value × Options)) →
    List Pending → Service × List (String × (Value × Options)) × List Pending
  | [], svc, sidPaths, pends => (svc, sidPaths, pends)
  | (path, options) :: rest, svc, sidPaths, pends =>
    let step : List (String × (Value × Options)) × List Pending :=
      match bus.callGetValueAsync serviceName path with
      | .error _ => (updateA sidPaths path (Value.VNull, options), pends)
      | .ok outcome => (sidPaths, pends ++ [⟨serviceId, path, options, outcome⟩])
    let svc' : Service :=
      match options.whenToLog with
      | some c => svc.appendBucket c path
      | none => svc
    scanPaths bus serviceName serviceId rest svc' step.1 step.2

/-- The `service` dict as it stands entering the path loop: resolved
bus identity, device instance, the four empty buckets (`match` not yet
assigned, placeholder 0). -/
def initService (serviceId : String) (di : Int) : Service :=
  { serviceId := serviceId, deviceInstance := di, configChange := [],
    onIntervalAlwaysAndOnEvent := [], onIntervalOnlyWhenChanged := [],
    onIntervalAlways := [], matchHandle := 0 }

/-- The tail of the scan after the device instance is known: run the
path loop, register the signal receiver, and only then commit the built
service into `self.items` (lines 150–190). -/
def scanAfterDeviceInstance (bus : Bus) (serviceName serviceId : String)
    (paths : List (String × Options)) (st1 : MonState) (di : Int) :
    Except PyErr Bool × MonState × List Pending :=
  let r := scanPaths bus serviceName serviceId paths (initService serviceId di) [] []
  let st2 : MonState :=
    { st1 with serviceIds := updateA st1.serviceIds serviceId ⟨serviceName, r.2.1⟩ }
  match bus.addSignalReceiver serviceName with
  | .error e =>
    if catchableBusErr e then (.ok false, st2, r.2.2)
    else (.error (.dbusException e), st2, r.2.2)
  | .ok h =>
    let svc2 : Service := { r.1 with matchHandle := h }
    (.ok true, { st2 with items := updateA st2.items serviceName svc2 }, r.2.2)

/-- Models `scan_dbus_service` (lines 105–190).  Returns the Python result
(`Except` models a raised exception), the post-call state (mutations
made before a raise persist, as in Python), and the list of
asynchronous fetches left outstanding.

Control flow mirrored from the source: schema lookup by 3-level class
(an absent or empty entry is falsy → return `False`); the
`assert serviceName not in self.items`; `get_name_owner` — outside the
`try`, so its failure propagates; the early
`self.serviceIds[serviceId] = {'name': ..., 'paths': {}}` (which
persists even if the scan later aborts); the `try` block reading the
device instance (with the `vebus.ttyO1` legacy override), running the
path loop and subscribing; the `except` clause turning
`ServiceUnknown`/`Disconnected` into `return False` and re-raising
anything else; `int(...)`'s `ValueError` is not a `DBusException` and
always propagates. -/
def scan_dbus_service (bus : Bus) (dbusTree : List (String × List (String × Options)))
    (vebusDeviceInstance0 : Bool) (st : MonState) (serviceName : String) :
    Except PyErr Bool × MonState × List Pending :=
  match lookupA dbusTree (serviceClass serviceName) with
  | none => (.ok false, st, [])
  | some paths =>
    if paths = [] then (.ok false, st, [])
    else if (lookupA st.items serviceName).isSome then (.error .assertionError, st, [])
    else
      match bus.nameOwner serviceName with
      | .error e => (.error (.dbusException e), st, [])
      | .ok serviceId =>
        let st1 : MonState :=
          { st with serviceIds := updateA st.serviceIds serviceId ⟨serviceName, []⟩ }
        if serviceName = "com.victronenergy.vebus.ttyO1" ∧ vebusDeviceInstance0 = true then
          scanAfterDeviceInstance bus serviceName serviceId paths st1 0
        else
          match bus.deviceInstanceValue serviceName with
          | .error e =>
            if catchableBusErr e then (.ok false, st1, [])
            else (.error (.dbusException e), st1, [])
          | .ok v =>
            match pyInt0 v with
            | .error pe => (.error pe, st1, [])
            | .ok di => scanAfterDeviceInstance bus serviceName serviceId paths st1 di

/-- The `Service` a successful scan commits into `self.items`: the
path-loop result with the signal-match handle filled in. -/
def scanResultService (bus : Bus) (nm sid : String)
    (ps : List (String × Options)) (di : Int) (h' : Nat) : Service :=
  { (scanPaths bus nm sid ps (initService sid di) [] []).1 with matchHandle := h' }

/-- The `paths` cache dict a scan leaves in `self.serviceIds[sid]`
(entries only for paths whose `call_async` raised synchronously). -/
def scanResultPaths (bus : Bus) (nm sid : String)
    (ps : List (String × Options)) (di : Int) :
    List (String × (Value × Options)) :=
  (scanPaths bus nm sid ps (initService sid di) [] []).2.1

/-- The asynchronous fetches a scan leaves outstanding. -/
def scanResultPends (bus : Bus) (nm sid : String)
    (ps : List (String × Options)) (di : Int) : List Pending :=
  (scanPaths bus nm sid ps (initService sid di) [] []).2.2

/-- The deferred argument record `idle_add` schedules for
`_execute_value_changes`: `(senderId, path, changes, a[1])`. -/
structure ScheduledChange where
  serviceId : String
  path : String
  options : Options
  changesValue : Value
  deriving DecidableEq

/-- Models `handler_value_changes` (lines 192–202): a `PropertiesChanged`
signal.  `self.serviceIds[senderId]` is indexed directly (`KeyError`
for an untracked sender); `.get(path, None)` then drops a signal for an
uncached path silently.  A hit updates the cached value synchronously
and, when `valueChangedCallback` is set, schedules the deferred
notification. -/
def handler_value_changes (hasValueChangedCallback : Bool) (st : MonState)
    (changesValue : Value) (path senderId : String) :
    Except PyErr (MonState × Option ScheduledChange) :=
  match lookupA st.serviceIds senderId with
  | none => .error .keyError
  | some e =>
    match lookupA e.paths path with
    | none => .ok (st, none)
    | some vo =>
      let e' : SIdEntry := { e with paths := updateA e.paths path (unwrapDbusValue changesValue, vo.2) }
      let st' : MonState := { st with serviceIds := updateA st.serviceIds senderId e' }
      .ok (st', if hasValueChangedCallback then some ⟨senderId, path, vo.2, changesValue⟩ else none)

/-- Models `get_device_instance` (lines 251–252): a direct
`self.items[serviceName]` lookup, raising `KeyError` when untracked. -/
def get_device_instance (st : MonState) (serviceName : String) : Except PyErr Int :=
  match lookupA st.items serviceName with
  | none => .error .keyError
  | some s => .ok s.deviceInstance

/-- Models `_execute_value_changes` (lines 204–212): the deferred half of a
change notification.  It re-checks `serviceId not in self.serviceIds`
and silently drops the notification when the service disappeared in
between; otherwise it reports the callback invocation. -/
def execute_value_changes (st : MonState) (sc : ScheduledChange) :
    Except PyErr (Option (String × String × Options × Value × Int)) :=
  match lookupA st.serviceIds sc.serviceId with
  | none => .ok none
  | some e =>
    match get_device_instance st e.name with
    | .error pe => .error pe
    | .ok di => .ok (some (e.name, sc.path, sc.options, sc.changesValue, di))

/-- Models `get_value` (lines 217–226).  `self.items.get(serviceName, None)`;
the stored `service` dict is never empty, so `if not service` only
fires on `None`.  The cache list `[value, options]` is likewise always
non-empty, so `if not value` only fires when the path is missing: a
present entry returns `value[0]` even when that stored value is
`None`. -/
def get_value (st : MonState) (serviceName objectPath : String)
    (default_value : Value) : Except PyErr Value :=
  match lookupA st.items serviceName with
  | none => .ok default_value
  | some service =>
    match lookupA st.serviceIds service.serviceId with
    | none => .error .keyError
    | some e =>
      match lookupA e.paths objectPath with
      | none => .ok default_value
      | some vo => .ok vo.1

/-- The methods the `DbusMonitor` class actually defines (there is no
`get_item` among them). -/
def dbusMonitorMethodNames : List String :=
  ["__init__", "dbus_name_owner_changed", "_process_name_owner_changed",
   "_set_value_callback", "_set_value_error", "scan_dbus_service",
   "handler_value_changes", "_execute_value_changes", "get_value",
   "set_value", "get_service_list", "get_device_instance", "get_values",
   "get_values_for_service"]

/-- Models `set_value` (lines 231–235) begins with
`item = self.get_item(serviceName, objectPath)`, but the class defines
no `get_item` method (see `dbusMonitorMethodNames`), so the attribute
lookup raises `AttributeError` before anything else can happen.  The
`then` branch is unreachable dead code kept only to exhibit the check. -/
def set_value (st : MonState) (serviceName objectPath : String) (value : Value) :
    Except PyErr Int :=
  if "get_item" ∈ dbusMonitorMethodNames then .ok (-1)
  else .error .attributeError

/-- The filter test of `get_service_list` (line 246):
`not classfilter or servicename.split('.')[0:3] == class_as_list` —
`None` and the empty string are falsy and admit every service. -/
def classMatches (classfilter : Option String) (servicename : String) : Bool :=
  match classfilter with
  | none => true
  | some c =>
    if c = "" then true
    else (splitDot servicename).take 3 = (splitDot c).take 3

/-- The accumulation loop of `get_service_list` over `self.items`;
`get_device_instance` on a key of `self.items` is its stored
`deviceInstance`. -/
def gslGo (classfilter : Option String) :
    List (String × Service) → List (String × Int) → List (String × Int)
  | [], r => r
  | (n, svc) :: t, r =>
    gslGo classfilter t
      (if classMatches classfilter n then updateA r n svc.deviceInstance else r)

/-- Models `get_service_list` (lines 240–249). -/
def get_service_list (st : MonState) (classfilter : Option String) :
    List (String × Int) :=
  gslGo classfilter st.items []

/-- The guarded cache lookup of `get_values_for_service` (lines
278–281): `self.serviceIds[service['serviceId']]['paths'][path]` inside
`try/except KeyError`, where any missing key yields `value = options =
None`. -/
def cacheLookup (st : MonState) (svc : Service) (p : String) :
    Option (Value × Options) :=
  (lookupA st.serviceIds svc.serviceId).bind fun e => lookupA e.paths p

/-- Models `value if not converter else converter.convert(options['code'], value)`
(line 285); a converter object is always truthy. -/
def applyConv (conv : Option (String → Value → Value)) (code : String)
    (v : Value) : Value :=
  match conv with
  | none => v
  | some f => f code v

/-- Python `round(value, ndigits)` for positive `ndigits` on the
modelled value domain: an int is returned unchanged; `None` or a
string raises `TypeError`.  (Floating point is outside the model.) -/
def pyRound (v : Value) (ndigits : Nat) : Except PyErr Value :=
  match v, ndigits with
  | .VInt m, _ => .ok (.VInt m)
  | _, _ => .error .typeError

/-- Models `precision = options.get('precision'); if precision: value =
round(value, precision)` (lines 287–289): an absent or zero precision
is falsy and skips the rounding. -/
def roundStep (precision : Option Nat) (v : Value) : Except PyErr Value :=
  match precision with
  | some (Nat.succ n) => pyRound v (Nat.succ n)
  | _ => .ok v

/-- Models `options['code'] + "[" + str(deviceInstance) + "]"` (line 291). -/
def mkKey (code : String) (deviceInstance : Int) : String :=
  code ++ "[" ++ toString deviceInstance ++ "]"

/-- The inner path loop of `get_values_for_service` (lines 276–291):
look the path up in the cache (missing → skip), skip `None` values,
convert, round, then `result[key] = value`. -/
def processPaths (cb : String → Option (Value × Options))
    (conv : Option (String → Value → Value)) (deviceInstance : Int) :
    List String → List (String × Value) → Except PyErr (List (String × Value))
  | [], r => .ok r
  | p :: t, r =>
    match cb p with
    | none => processPaths cb conv deviceInstance t r
    | some vo =>
      if vo.1 = .VNull then processPaths cb conv deviceInstance t r
      else
        match roundStep vo.2.precision (applyConv conv vo.2.code vo.1) with
        | .error e => .error e
        | .ok v2 =>
          processPaths cb conv deviceInstance t
            (updateA r (mkKey vo.2.code deviceInstance) v2)

/-- The outer category loop of `get_values_for_service` (line 274). -/
def processCats (cb : String → Option (Value × Options))
    (conv : Option (String → Value → Value)) (deviceInstance : Int)
    (bucketFn : Category → List String) :
    List Category → List (String × Value) → Except PyErr (List (String × Value))
  | [], r => .ok r
  | c :: t, r =>
    match processPaths cb conv deviceInstance (bucketFn c) r with
    | .error e => .error e
    | .ok r' => processCats cb conv deviceInstance bucketFn t r'

/-- Models `get_values_for_service` (lines 268–293): `get_device_instance`
raises `KeyError` for an untracked service; otherwise the nested
loops fill a fresh result dict. -/
def get_values_for_service (st : MonState) (categoryfilter : List Category)
    (servicename : String) (conv : Option (String → Value → Value)) :
    Except PyErr (List (String × Value)) :=
  match lookupA st.items servicename with
  | none => .error .keyError
  | some svc =>
    processCats (cacheLookup st svc) conv svc.deviceInstance svc.bucket
      categoryfilter []

/-- The service loop of `get_values` (lines 262–263):
`result.update(self.get_values_for_service(...))` writes the entries of
each per-service dict into the accumulator in order. -/
def gvGo (st : MonState) (categoryfilter : List Category)
    (conv : Option (String → Value → Value)) :
    List (String × Service) → List (String × Value) →
    Except PyErr (List (String × Value))
  | [], r => .ok r
  | (n, _) :: t, r =>
    match get_values_for_service st categoryfilter n conv with
    | .error e => .error e
    | .ok l => gvGo st categoryfilter conv t (l.foldl (fun a kv => updateA a kv.1 kv.2) r)

/-- Models `get_values` (lines 258–265). -/
def get_values (st : MonState) (categoryfilter : List Category)
    (conv : Option (String → Value → Value)) :
    Except PyErr (List (String × Value)) :=
  gvGo st categoryfilter conv st.items []

/-- The removal branch of `_process_name_owner_changed` (lines 88–95):
for a tracked name, delete the `serviceIds` entry and the `items`
entry, and report the device-removed notification with the last known
device instance; a no-op for an unknown name. -/
def removeService (st : MonState) (name : String) :
    MonState × Option (String × Int) :=
  match lookupA st.items name with
  | none => (st, none)
  | some svc =>
    ({ items := eraseA st.items name,
       serviceIds := eraseA st.serviceIds svc.serviceId },
     some (name, svc.deviceInstance))

/-! ## Specification-side definitions (for the refinement claim C8)

These definitions follow the wording of the spec's `get_values`
description — "for every tracked service, for every path whose category
is in `categories`, looks up the cached value; skips null values;
applies an optional caller-supplied unit converter keyed by the path's
code, then applies optional rounding to the configured precision; emits
into the result keyed by `\"code[deviceInstance]\"`" — as a direct
comprehension, to be compared with the dict-update loops above. -/

/-- Spec-side rounding: rounding an integer to a (truthy) number of
decimal digits leaves it unchanged; on the modelled value domain the
configured rounding therefore keeps the value. -/
def specRound (precision : Option Nat) (v : Value) : Value :=
  match precision, v with
  | some (Nat.succ _), .VInt m => .VInt m
  | _, w => w

/-- Spec-side value pipeline: converter keyed by the path's code first,
then rounding to the configured precision. -/
def specPipeline (conv : Option (String → Value → Value)) (o : Options)
    (v : Value) : Value :=
  specRound o.precision (applyConv conv o.code v)

/-- Spec-side: the emitted entry of one path — look up the cached
value, skip a missing or null value, otherwise emit the pipelined value
keyed `code[deviceInstance]`. -/
def specEntryOfPath (cb : String → Option (Value × Options))
    (conv : Option (String → Value → Value)) (di : Int) (p : String) :
    Option (String × Value) :=
  match cb p with
  | none => none
  | some vo =>
    if vo.1 = .VNull then none
    else some (mkKey vo.2.code di, specPipeline conv vo.2 vo.1)

/-- Spec-side `get_values_for_service`: all entries of the paths whose
registered category is in the filter, in category-bucket order. -/
def getValuesForServiceSpec (st : MonState) (cats : List Category)
    (name : String) (conv : Option (String → Value → Value)) :
    List (String × Value) :=
  match lookupA st.items name with
  | none => []
  | some svc =>
    cats.flatMap fun c =>
      (svc.bucket c).filterMap
        (specEntryOfPath (cacheLookup st svc) conv svc.deviceInstance)

/-- Spec-side `get_values`: the per-service entries of every tracked
service. -/
def getValuesSpec (st : MonState) (cats : List Category)
    (conv : Option (String → Value → Value)) : List (String × Value) :=
  st.items.flatMap fun nv => getValuesForServiceSpec st cats nv.1 conv

/-- Side condition: the value a path feeds into `round` is an integer
whenever its configured precision is truthy (so Python's `round` is
defined on it). -/
def entryRoundOkB (conv : Option (String → Value → Value)) (o : Options)
    (v : Value) : Bool :=
  match o.precision with
  | some (Nat.succ _) =>
    match applyConv conv o.code v with
    | .VInt _ => true
    | _ => false
  | _ => true

/-- Models `entryRoundOkB` for whatever the cache holds at one path. -/
def pathRoundOkB (cb : String → Option (Value × Options))
    (conv : Option (String → Value → Value)) (p : String) : Bool :=
  match cb p with
  | none => true
  | some vo => if vo.1 = .VNull then true else entryRoundOkB conv vo.2 vo.1

/-- Models `pathRoundOkB` over every filtered bucket of one service. -/
def serviceRoundOkB (st : MonState) (cats : List Category)
    (conv : Option (String → Value → Value)) (svc : Service) : Bool :=
  cats.all fun c => (svc.bucket c).all (pathRoundOkB (cacheLookup st svc) conv)

/-- Models `serviceRoundOkB` over every tracked service. -/
def roundSafeAllB (st : MonState) (cats : List Category)
    (conv : Option (String → Value → Value)) : Bool :=
  st.items.all fun nv => serviceRoundOkB st cats conv nv.2

/-! ## Concrete fixtures

A small schema and bus used to instantiate the theorems: the scenario of
spec §8 — service `com.victronenergy.battery.ttyUSB0`, schema entry
`/Soc → {code: "soc", whenToLog: onIntervalAlways}`, device instance 2. -/

/-- The empty monitor state (as after `__init__` before any scan). -/
def st0 : MonState := { items := [], serviceIds := [] }

/-- Schema options for `/Soc`. -/
def exOpts : Options :=
  { code := "soc", whenToLog := some .onIntervalAlways, precision := none }

/-- A one-entry schema tree. -/
def exTree : List (String × List (String × Options)) :=
  [("com.victronenergy.battery", [("/Soc", exOpts)])]

/-- The scanned service name. -/
def exName : String := "com.victronenergy.battery.ttyUSB0"

/-- Its transient bus identity. -/
def exSid : String := ":1.5"

/-- A bus on which everything works; the `/Soc` fetch will complete
asynchronously with the value 42. -/
def exBusP : Bus :=
  { nameOwner := fun _ => .ok exSid,
    deviceInstanceValue := fun _ => .ok (.VInt 2),
    callGetValueAsync := fun _ _ => .ok (.success (.VInt 42)),
    addSignalReceiver := fun _ => .ok 7 }

/-- Like `exBusP`, but the asynchronous `/Soc` fetch will fail
(property absent). -/
def exBusF : Bus :=
  { nameOwner := fun _ => .ok exSid,
    deviceInstanceValue := fun _ => .ok (.VInt 2),
    callGetValueAsync := fun _ _ => .ok .failure,
    addSignalReceiver := fun _ => .ok 7 }

/-- The tracked service a successful scan of `exName` over `exTree`
builds. -/
def exSvc : Service :=
  { serviceId := exSid, deviceInstance := 2, configChange := [],
    onIntervalAlwaysAndOnEvent := [], onIntervalOnlyWhenChanged := [],
    onIntervalAlways := ["/Soc"], matchHandle := 7 }

/-- The monitor state after scanning `exName` and then receiving the
failed `/Soc` fetch completion. -/
def stAfterFail : MonState :=
  { items := [(exName, exSvc)],
    serviceIds := [(exSid, ⟨exName, [("/Soc", (Value.VNull, exOpts))]⟩)] }

/-- Bus on which `exName` exists but its `/DeviceInstance` property
holds the unparseable string `"abc"`. -/
def exBusStr : Bus :=
  { nameOwner := fun _ => .ok exSid,
    deviceInstanceValue := fun _ => .ok (.VStr "abc"),
    callGetValueAsync := fun _ _ => .ok (.success (.VInt 42)),
    addSignalReceiver := fun _ => .ok 7 }

/-- Bus on which `exName` vanishes between `get_name_owner` and the
device-instance read: that read reports `ServiceUnknown`. -/
def exBusVanish : Bus :=
  { nameOwner := fun _ => .ok exSid,
    deviceInstanceValue := fun _ =>
      .error ⟨"org.freedesktop.DBus.Error.ServiceUnknown"⟩,
    callGetValueAsync := fun _ _ => .ok (.success (.VInt 42)),
    addSignalReceiver := fun _ => .ok 7 }

/-- Schema options with a null `whenToLog` category label. -/
def exOptsN : Options := { code := "serial", whenToLog := none, precision := none }

/-- Bus for the null-category scenario: `/Serial` fetch completes with a
string value. -/
def exBusN : Bus :=
  { nameOwner := fun _ => .ok exSid,
    deviceInstanceValue := fun _ => .ok (.VInt 2),
    callGetValueAsync := fun _ _ => .ok (.success (.VStr "HQ1234ABCD")),
    addSignalReceiver := fun _ => .ok 7 }

/-- The monitor state after scanning `exName` and then receiving the
successful `/Soc` fetch completion with value 42. -/
def stAfterSucc : MonState :=
  { items := [(exName, exSvc)],
    serviceIds := [(exSid, ⟨exName, [("/Soc", (Value.VInt 42, exOpts))]⟩)] }

/-! ## Association-list lemmas -/

theorem lookupA_updateA_self {α : Type} (l : List (String × α)) (k : String)
    (v : α) : lookupA (updateA l k v) k = some v := by
  induction l with
  | nil => simp [updateA, lookupA]
  | cons h t ih =>
    by_cases hk : h.1 = k
    · simp [updateA, lookupA, hk]
    · simpa [updateA, lookupA, hk] using ih

theorem lookupA_updateA_ne {α : Type} (l : List (String × α)) (k k' : String)
    (v : α) (h : k ≠ k') : lookupA (updateA l k v) k' = lookupA l k' := by
  induction l with
  | nil => simp [updateA, lookupA, h]
  | cons hd t ih =>
    by_cases hk : hd.1 = k
    · simp [updateA, lookupA, hk, h, ih]
    · simp [updateA, lookupA, hk, ih]

theorem lookupA_eq_none_iff {α : Type} (l : List (String × α)) (k : String) :
    lookupA l k = none ↔ k ∉ l.map Prod.fst := by
  induction l with
  | nil => simp [lookupA]
  | cons hd t ih =>
    by_cases hk : hd.1 = k
    · simp [lookupA, hk]
    · simp [lookupA, hk, ih, Ne.symm hk]

theorem updateA_of_not_mem {α : Type} (l : List (String × α)) (k : String)
    (v : α) (h : k ∉ l.map Prod.fst) : updateA l k v = l ++ [(k, v)] := by
  induction l with
  | nil => simp [updateA]
  | cons hd t ih =>
    simp only [List.map_cons, List.mem_cons] at h
    push_neg at h
    simp [updateA, Ne.symm h.1, ih h.2]

theorem lookupA_updateA_ne_none {α : Type} (l : List (String × α))
    (k k' : String) (v : α) (h : lookupA l k' ≠ none) :
    lookupA (updateA l k v) k' ≠ none := by
  by_cases hk : k = k'
  · subst hk; simp [lookupA_updateA_self]
  · rwa [lookupA_updateA_ne l k k' v hk]

theorem foldl_updateA_append {α : Type} (l r : List (String × α))
    (hn : (l.map Prod.fst).Nodup)
    (hd : ∀ k ∈ l.map Prod.fst, k ∉ r.map Prod.fst) :
    l.foldl (fun a kv => updateA a kv.1 kv.2) r = r ++ l := by
  induction l generalizing r with
  | nil => simp
  | cons hd' t ih =>
    simp only [List.map_cons, List.nodup_cons] at hn
    have hfresh : hd'.1 ∉ r.map Prod.fst := hd hd'.1 (by simp)
    have step : updateA r hd'.1 hd'.2 = r ++ [(hd'.1, hd'.2)] :=
      updateA_of_not_mem r hd'.1 hd'.2 hfresh
    have hd2 : ∀ k ∈ t.map Prod.fst, k ∉ (r ++ [(hd'.1, hd'.2)]).map Prod.fst := by
      intro k hk
      simp only [List.map_append, List.mem_append, List.map_cons, List.map_nil,
        List.mem_singleton, not_or]
      exact ⟨hd k (by simp [hk]), fun hkk => hn.1 (hkk ▸ hk)⟩
    have ih' := ih (r ++ [(hd'.1, hd'.2)]) hn.2 hd2
    simp only [List.foldl_cons, step, ih']
    simp

/-! ## Claim theorems -/

/-- C1: `set_value` never returns the sentinel `-1` — for tracked and
untracked `(service, path)` alike it raises `AttributeError`, because
the method body calls `self.get_item(...)` and the `DbusMonitor` class
defines no `get_item` method.  This contradicts both the claim and the
method's own comment ("If the underlying item does not exist the
function will return -1"). -/
theorem set_value_always_raises_attribute_error (st : MonState)
    (serviceName objectPath : String) (value : Value) :
    set_value st serviceName objectPath value = .error .attributeError := by
  simp [set_value, dbusMonitorMethodNames]

/-- C2: after a scan of `com.victronenergy.battery.ttyUSB0` whose
`/Soc` fetch fails (property absent: the error handler stores
`[None, options]`), `get_value(serviceName, "/Soc", -1)` returns the
stored `None` — not the caller's default `-1` as the claim and the
method's own comment state.  `if not value` tests the two-element cache
list, which is always truthy, so the null cached value is returned
as-is. -/
theorem get_value_null_cached_value_ignores_default :
    (scan_dbus_service exBusF exTree false st0 exName).2.2 =
      [⟨exSid, "/Soc", exOpts, .failure⟩] ∧
    ∃ st2, applyPending (scan_dbus_service exBusF exTree false st0 exName).2.1
        ⟨exSid, "/Soc", exOpts, .failure⟩ = .ok st2 ∧
      get_value st2 exName "/Soc" (Value.VInt (-1)) = .ok Value.VNull ∧
      get_value st2 exName "/Soc" (Value.VInt (-1)) ≠ .ok (Value.VInt (-1)) := by
  exact ⟨by decide, stAfterFail, by decide, by decide, by decide⟩

/-- C3 (counterexample): the completion of the `/Soc` fetch issued by a
successful scan, delivered after the service has been removed, raises
`KeyError` — it is not silently discarded as the claim states. -/
theorem fetch_completion_after_removal_raises :
    (scan_dbus_service exBusP exTree false st0 exName).2.2 =
      [⟨exSid, "/Soc", exOpts, .success (.VInt 42)⟩] ∧
    applyPending
        (removeService (scan_dbus_service exBusP exTree false st0 exName).2.1 exName).1
        ⟨exSid, "/Soc", exOpts, .success (.VInt 42)⟩ = .error .keyError := by
  exact ⟨by decide, by decide⟩

/-- C3 (amended): a fetch completion performs no tracking check at all.
`_set_value_callback` and `_set_value_error` index
`self.serviceIds[serviceId]` directly: for an untracked bus identity
both raise `KeyError` (instead of silently discarding), and for a
tracked identity they write the cache entry unconditionally. -/
theorem fetch_completion_requires_tracked_identity (st : MonState)
    (sid p : String) (o : Options) (v : Value) :
    (lookupA st.serviceIds sid = none →
      set_value_callback st sid p o v = .error .keyError ∧
      set_value_error st sid p o = .error .keyError) ∧
    (∀ e, lookupA st.serviceIds sid = some e →
      ∃ st', set_value_callback st sid p o v = .ok st' ∧
        ∃ e', lookupA st'.serviceIds sid = some e' ∧
          lookupA e'.paths p = some (v, o)) := by
  constructor
  · intro h
    exact ⟨by simp [set_value_callback, h], by simp [set_value_error, h]⟩
  · intro e he
    exact ⟨{ st with serviceIds := updateA st.serviceIds sid ⟨e.name, updateA e.paths p (unwrapDbusValue v, o)⟩ },
           by simp [set_value_callback, he],
           ⟨e.name, updateA e.paths p (unwrapDbusValue v, o)⟩,
           lookupA_updateA_self _ _ _,
           lookupA_updateA_self _ _ _⟩

/-- C3 witness: the amended theorem applied to the empty state. -/
theorem fetch_completion_requires_tracked_identity_witness :
    set_value_callback st0 ":1.9" "/Soc" exOpts (Value.VInt 1) =
      .error .keyError :=
  ((fetch_completion_requires_tracked_identity st0 ":1.9" "/Soc" exOpts
    (Value.VInt 1)).1 rfl).1

/-- C5 (counterexample): a `PropertiesChanged` signal whose sender bus
identity is not tracked at all raises `KeyError` in
`handler_value_changes` (which indexes `self.serviceIds[senderId]`
directly) — it is not dropped silently as the claim states. -/
theorem signal_from_untracked_sender_raises :
    handler_value_changes false st0 (Value.VInt 5) "/Soc" ":1.7" =
      .error .keyError ∧
    handler_value_changes false st0 (Value.VInt 5) "/Soc" ":1.7" ≠
      .ok (st0, none) := by
  exact ⟨by decide, by decide⟩

/-- C5 (amended): only a signal from a *tracked* sender whose path has
no cache entry is dropped silently with no state change; a signal from
an untracked sender bus identity raises `KeyError`. -/
theorem signal_unknown_path_dropped_unknown_sender_raises (cb : Bool)
    (st : MonState) (v : Value) (path senderId : String) :
    (lookupA st.serviceIds senderId = none →
      handler_value_changes cb st v path senderId = .error .keyError) ∧
    (∀ e, lookupA st.serviceIds senderId = some e →
      lookupA e.paths path = none →
      handler_value_changes cb st v path senderId = .ok (st, none)) := by
  constructor
  · intro h
    simp [handler_value_changes, h]
  · intro e he hp
    simp [handler_value_changes, he, hp]

/-- C5 witness: the amended theorem applied to a state tracking the
sender with an empty path cache. -/
theorem signal_unknown_path_dropped_witness :
    handler_value_changes true
      { items := [], serviceIds := [(exSid, ⟨exName, []⟩)] }
      (Value.VInt 5) "/Soc" exSid =
      .ok ({ items := [], serviceIds := [(exSid, ⟨exName, []⟩)] }, none) :=
  (signal_unknown_path_dropped_unknown_sender_raises true
    { items := [], serviceIds := [(exSid, ⟨exName, []⟩)] }
    (Value.VInt 5) "/Soc" exSid).2 ⟨exName, []⟩ rfl rfl

/-! ## Structural lemmas about the scan -/

theorem appendBucket_serviceId (s : Service) (c : Category) (p : String) :
    (s.appendBucket c p).serviceId = s.serviceId := by
  cases c <;> rfl

theorem appendBucket_deviceInstance (s : Service) (c : Category) (p : String) :
    (s.appendBucket c p).deviceInstance = s.deviceInstance := by
  cases c <;> rfl

theorem scanPaths_core (bus : Bus) (nm sid : String) :
    ∀ (ps : List (String × Options)) (svc : Service)
      (sidPaths : List (String × (Value × Options))) (pends : List Pending),
    (scanPaths bus nm sid ps svc sidPaths pends).1.serviceId = svc.serviceId ∧
    (scanPaths bus nm sid ps svc sidPaths pends).1.deviceInstance = svc.deviceInstance := by
  intro ps
  induction ps with
  | nil => intro svc sidPaths pends; exact ⟨rfl, rfl⟩
  | cons hd t ih =>
    intro svc sidPaths pends
    obtain ⟨p, o⟩ := hd
    cases ho : o.whenToLog with
    | none =>
      cases hc : bus.callGetValueAsync nm p with
      | error e =>
        simpa [scanPaths, hc, ho] using
          ih svc (updateA sidPaths p (Value.VNull, o)) pends
      | ok oc =>
        simpa [scanPaths, hc, ho] using ih svc sidPaths (pends ++ [⟨sid, p, o, oc⟩])
    | some c =>
      cases hc : bus.callGetValueAsync nm p with
      | error e =>
        have h1 := ih (svc.appendBucket c p) (updateA sidPaths p (Value.VNull, o)) pends
        simp [scanPaths, hc, ho, h1.1, h1.2, appendBucket_serviceId,
          appendBucket_deviceInstance]
      | ok oc =>
        have h1 := ih (svc.appendBucket c p) sidPaths (pends ++ [⟨sid, p, o, oc⟩])
        simp [scanPaths, hc, ho, h1.1, h1.2, appendBucket_serviceId,
          appendBucket_deviceInstance]

theorem scanPaths_paths_mono (bus : Bus) (nm sid : String) :
    ∀ (ps : List (String × Options)) (svc : Service)
      (sidPaths : List (String × (Value × Options))) (pends : List Pending)
      (p : String), lookupA sidPaths p ≠ none →
    lookupA (scanPaths bus nm sid ps svc sidPaths pends).2.1 p ≠ none := by
  intro ps
  induction ps with
  | nil => intro svc sidPaths pends p h; exact h
  | cons hd t ih =>
    intro svc sidPaths pends p h
    obtain ⟨q, o⟩ := hd
    cases hc : bus.callGetValueAsync nm q with
    | error e =>
      have h2 : lookupA (updateA sidPaths q (Value.VNull, o)) p ≠ none :=
        lookupA_updateA_ne_none sidPaths q p (Value.VNull, o) h
      simpa [scanPaths, hc] using ih _ (updateA sidPaths q (Value.VNull, o)) pends p h2
    | ok oc =>
      simpa [scanPaths, hc] using ih _ sidPaths (pends ++ [⟨sid, q, o, oc⟩]) p h

theorem scanPaths_pends_mono (bus : Bus) (nm sid : String) :
    ∀ (ps : List (String × Options)) (svc : Service)
      (sidPaths : List (String × (Value × Options))) (pends : List Pending)
      (pd : Pending), pd ∈ pends →
    pd ∈ (scanPaths bus nm sid ps svc sidPaths pends).2.2 := by
  intro ps
  induction ps with
  | nil => intro svc sidPaths pends pd h; exact h
  | cons hd t ih =>
    intro svc sidPaths pends pd h
    obtain ⟨q, o⟩ := hd
    cases hc : bus.callGetValueAsync nm q with
    | error e =>
      simpa [scanPaths, hc] using ih _ (updateA sidPaths q (Value.VNull, o)) pends pd h
    | ok oc =>
      have h2 : pd ∈ pends ++ [⟨sid, q, o, oc⟩] := List.mem_append_left _ h
      simpa [scanPaths, hc] using ih _ sidPaths (pends ++ [⟨sid, q, o, oc⟩]) pd h2

theorem scanPaths_entries (bus : Bus) (nm sid : String) :
    ∀ (ps : List (String × Options)) (svc : Service)
      (sidPaths : List (String × (Value × Options))) (pends : List Pending),
    ∀ po ∈ ps,
      lookupA (scanPaths bus nm sid ps svc sidPaths pends).2.1 po.1 ≠ none ∨
      ∃ pd ∈ (scanPaths bus nm sid ps svc sidPaths pends).2.2,
        pd.serviceId = sid ∧ pd.path = po.1 ∧ pd.options = po.2 := by
  intro ps
  induction ps with
  | nil => intro svc sidPaths pends po hpo; exact absurd hpo (List.not_mem_nil po)
  | cons hd t ih =>
    intro svc sidPaths pends po hpo
    obtain ⟨q, o⟩ := hd
    rcases List.mem_cons.mp hpo with hh | hh
    · subst hh
      cases hc : bus.callGetValueAsync nm q with
      | error e =>
        left
        have hself : lookupA (updateA sidPaths q (Value.VNull, o)) q ≠ none := by
          simp [lookupA_updateA_self]
        simpa [scanPaths, hc] using
          scanPaths_paths_mono bus nm sid t _ (updateA sidPaths q (Value.VNull, o)) pends q hself
      | ok oc =>
        right
        refine ⟨⟨sid, q, o, oc⟩, ?_, rfl, rfl, rfl⟩
        have h2 : (⟨sid, q, o, oc⟩ : Pending) ∈ pends ++ [⟨sid, q, o, oc⟩] :=
          List.mem_append_right _ (by simp)
        simpa [scanPaths, hc] using
          scanPaths_pends_mono bus nm sid t _ sidPaths (pends ++ [⟨sid, q, o, oc⟩]) _ h2
    · cases hc : bus.callGetValueAsync nm q with
      | error e =>
        simpa [scanPaths, hc] using
          ih _ (updateA sidPaths q (Value.VNull, o)) pends po hh
      | ok oc =>
        simpa [scanPaths, hc] using ih _ sidPaths (pends ++ [⟨sid, q, o, oc⟩]) po hh

theorem scanAfterDI_success (bus : Bus) (nm sid : String)
    (ps : List (String × Options)) (st1 : MonState) (di : Int) (h' : Nat)
    (hsig : bus.addSignalReceiver nm = .ok h') :
    scanAfterDeviceInstance bus nm sid ps st1 di =
      (.ok true,
       ⟨updateA st1.items nm (scanResultService bus nm sid ps di h'),
        updateA st1.serviceIds sid ⟨nm, scanResultPaths bus nm sid ps di⟩⟩,
       scanResultPends bus nm sid ps di) := by
  simp only [scanAfterDeviceInstance, hsig, scanResultService, scanResultPaths,
    scanResultPends]

theorem scanAfterDI_items_of_ne (bus : Bus) (nm sid : String)
    (ps : List (String × Options)) (st1 : MonState) (di : Int)
    (h : (scanAfterDeviceInstance bus nm sid ps st1 di).1 ≠ .ok true) :
    (scanAfterDeviceInstance bus nm sid ps st1 di).2.1.items = st1.items := by
  cases hs : bus.addSignalReceiver nm with
  | error e =>
    by_cases hcatch : catchableBusErr e
    · simp [scanAfterDeviceInstance, hs, hcatch]
    · simp [scanAfterDeviceInstance, hs, hcatch]
  | ok h' =>
    exact absurd (by simp [scanAfterDeviceInstance, hs]) h

/-! ### Control-flow reductions of the scan under pinned bus behaviour -/

theorem scan_not_in_tree (bus : Bus) (tree : List (String × List (String × Options)))
    (flag : Bool) (st : MonState) (nm : String)
    (htree : lookupA tree (serviceClass nm) = none) :
    scan_dbus_service bus tree flag st nm = (.ok false, st, []) := by
  simp [scan_dbus_service, htree]

theorem scan_owner_error (bus : Bus) (tree : List (String × List (String × Options)))
    (flag : Bool) (st : MonState) (nm : String) (ps : List (String × Options))
    (e0 : BusErr)
    (htree : lookupA tree (serviceClass nm) = some ps) (hps : ¬ ps = [])
    (hitems : lookupA st.items nm = none)
    (howner : bus.nameOwner nm = .error e0) :
    scan_dbus_service bus tree flag st nm = (.error (.dbusException e0), st, []) := by
  simp [scan_dbus_service, htree, hps, hitems, howner]

theorem scan_device_error (bus : Bus) (tree : List (String × List (String × Options)))
    (flag : Bool) (st : MonState) (nm sid : String) (ps : List (String × Options))
    (e : BusErr)
    (htree : lookupA tree (serviceClass nm) = some ps) (hps : ¬ ps = [])
    (hitems : lookupA st.items nm = none)
    (howner : bus.nameOwner nm = .ok sid)
    (hnleg : ¬(nm = "com.victronenergy.vebus.ttyO1" ∧ flag = true))
    (hdi : bus.deviceInstanceValue nm = .error e) :
    scan_dbus_service bus tree flag st nm =
      (if catchableBusErr e then (.ok false) else .error (.dbusException e),
       { st with serviceIds := updateA st.serviceIds sid ⟨nm, []⟩ }, []) := by
  by_cases hcatch : catchableBusErr e <;>
    simp [scan_dbus_service, htree, hps, hitems, howner, hnleg, hdi, hcatch]

theorem scan_device_parse_error (bus : Bus)
    (tree : List (String × List (String × Options))) (flag : Bool)
    (st : MonState) (nm sid : String) (ps : List (String × Options))
    (v : Value) (pe : PyErr)
    (htree : lookupA tree (serviceClass nm) = some ps) (hps : ¬ ps = [])
    (hitems : lookupA st.items nm = none)
    (howner : bus.nameOwner nm = .ok sid)
    (hnleg : ¬(nm = "com.victronenergy.vebus.ttyO1" ∧ flag = true))
    (hdi : bus.deviceInstanceValue nm = .ok v)
    (hv : pyInt0 v = .error pe) :
    scan_dbus_service bus tree flag st nm =
      (.error pe, { st with serviceIds := updateA st.serviceIds sid ⟨nm, []⟩ }, []) := by
  simp [scan_dbus_service, htree, hps, hitems, howner, hnleg, hdi, hv]

theorem scan_reduces_to_after (bus : Bus)
    (tree : List (String × List (String × Options))) (flag : Bool)
    (st : MonState) (nm sid : String) (ps : List (String × Options))
    (v : Value) (di : Int)
    (htree : lookupA tree (serviceClass nm) = some ps) (hps : ¬ ps = [])
    (hitems : lookupA st.items nm = none)
    (howner : bus.nameOwner nm = .ok sid)
    (hnleg : ¬(nm = "com.victronenergy.vebus.ttyO1" ∧ flag = true))
    (hdi : bus.deviceInstanceValue nm = .ok v)
    (hv : pyInt0 v = .ok di) :
    scan_dbus_service bus tree flag st nm =
      scanAfterDeviceInstance bus nm sid ps
        { st with serviceIds := updateA st.serviceIds sid ⟨nm, []⟩ } di := by
  simp [scan_dbus_service, htree, hps, hitems, howner, hnleg, hdi, hv]

theorem scan_reduces_to_after_legacy (bus : Bus)
    (tree : List (String × List (String × Options))) (flag : Bool)
    (st : MonState) (sid : String) (ps : List (String × Options))
    (htree : lookupA tree (serviceClass "com.victronenergy.vebus.ttyO1") = some ps)
    (hps : ¬ ps = [])
    (hitems : lookupA st.items "com.victronenergy.vebus.ttyO1" = none)
    (howner : bus.nameOwner "com.victronenergy.vebus.ttyO1" = .ok sid)
    (hflag : flag = true) :
    scan_dbus_service bus tree flag st "com.victronenergy.vebus.ttyO1" =
      scanAfterDeviceInstance bus "com.victronenergy.vebus.ttyO1" sid ps
        { st with serviceIds :=
            updateA st.serviceIds sid ⟨"com.victronenergy.vebus.ttyO1", []⟩ } 0 := by
  subst hflag
  simp [scan_dbus_service, htree, hps, hitems, howner]

theorem scanAfterDI_commit (bus : Bus) (nm sid : String)
    (ps : List (String × Options)) (st1 : MonState) (di : Int) (h' : Nat)
    (hsig : bus.addSignalReceiver nm = .ok h') :
    (scanAfterDeviceInstance bus nm sid ps st1 di).1 = .ok true ∧
    ∃ svc, lookupA (scanAfterDeviceInstance bus nm sid ps st1 di).2.1.items nm = some svc ∧
      svc.deviceInstance = di := by
  rw [scanAfterDI_success bus nm sid ps st1 di h' hsig]
  refine ⟨rfl, scanResultService bus nm sid ps di h', lookupA_updateA_self _ _ _, ?_⟩
  exact (scanPaths_core bus nm sid ps (initService sid di) [] []).2

/-- C9 (counterexample): with the `/DeviceInstance` property holding the
unparseable string `"abc"`, the scan raises `ValueError` from
`int(device_instance)` (not caught — it is no `DBusException`) instead
of defaulting the device instance to 0; nothing is added to the
registry. -/
theorem scan_unparseable_device_instance_raises :
    (scan_dbus_service exBusStr exTree false st0 exName).1 = .error .valueError ∧
    lookupA (scan_dbus_service exBusStr exTree false st0 exName).2.1.items exName = none := by
  exact ⟨by decide, by decide⟩

/-- C9 (amended): during scan the device-instance property is read
synchronously and treated as an integer; it defaults to 0 when the
property is *absent* (`None`), and under the legacy flag for
`com.victronenergy.vebus.ttyO1` it is 0 without consulting the
property; but an *unparseable* value does not default — `int(...)`
raises `ValueError`, which propagates out of the scan. -/
theorem scan_device_instance_amended (bus : Bus)
    (tree : List (String × List (String × Options))) (flag : Bool)
    (st : MonState) (nm sid : String) (ps : List (String × Options)) (h' : Nat)
    (htree : lookupA tree (serviceClass nm) = some ps) (hps : ¬ ps = [])
    (hitems : lookupA st.items nm = none)
    (howner : bus.nameOwner nm = .ok sid)
    (hsig : bus.addSignalReceiver nm = .ok h') :
    ((nm = "com.victronenergy.vebus.ttyO1" ∧ flag = true) →
      (scan_dbus_service bus tree flag st nm).1 = .ok true ∧
      ∃ svc, lookupA (scan_dbus_service bus tree flag st nm).2.1.items nm = some svc ∧
        svc.deviceInstance = 0) ∧
    (¬(nm = "com.victronenergy.vebus.ttyO1" ∧ flag = true) →
      (bus.deviceInstanceValue nm = .ok .VNull →
        (scan_dbus_service bus tree flag st nm).1 = .ok true ∧
        ∃ svc, lookupA (scan_dbus_service bus tree flag st nm).2.1.items nm = some svc ∧
          svc.deviceInstance = 0) ∧
      (∀ n : Int, bus.deviceInstanceValue nm = .ok (.VInt n) →
        (scan_dbus_service bus tree flag st nm).1 = .ok true ∧
        ∃ svc, lookupA (scan_dbus_service bus tree flag st nm).2.1.items nm = some svc ∧
          svc.deviceInstance = n) ∧
      (∀ s : String, bus.deviceInstanceValue nm = .ok (.VStr s) →
        pyStrToInt s = none →
        (scan_dbus_service bus tree flag st nm).1 = .error .valueError)) := by
  constructor
  · intro hleg
    obtain ⟨h1, h2⟩ := hleg
    subst h1
    rw [scan_reduces_to_after_legacy bus tree flag st sid ps htree hps hitems howner h2]
    exact scanAfterDI_commit bus _ sid ps _ 0 h' hsig
  · intro hnleg
    refine ⟨?_, ?_, ?_⟩
    · intro hdi
      rw [scan_reduces_to_after bus tree flag st nm sid ps .VNull 0 htree hps hitems
        howner hnleg hdi rfl]
      exact scanAfterDI_commit bus nm sid ps _ 0 h' hsig
    · intro n hdi
      rw [scan_reduces_to_after bus tree flag st nm sid ps (.VInt n) n htree hps hitems
        howner hnleg hdi rfl]
      exact scanAfterDI_commit bus nm sid ps _ n h' hsig
    · intro s hdi hparse
      rw [scan_device_parse_error bus tree flag st nm sid ps (.VStr s) .valueError
        htree hps hitems howner hnleg hdi (by simp [pyInt0, hparse])]

/-- C9 witness: on `exBusP` the property reads `2` and the scan commits
device instance 2. -/
theorem scan_device_instance_amended_witness :
    (scan_dbus_service exBusP exTree false st0 exName).1 = .ok true ∧
    ∃ svc, lookupA (scan_dbus_service exBusP exTree false st0 exName).2.1.items exName = some svc ∧
      svc.deviceInstance = 2 :=
  ((scan_device_instance_amended exBusP exTree false st0 exName exSid
      [("/Soc", exOpts)] 7 (by decide) (by decide) (by decide) (by decide)
      (by decide)).2 (by decide)).2.1 2 (by decide)

/-- C7 (counterexample): the service vanishes between bus-identity
resolution and the device-instance read; the scan catches the
`ServiceUnknown` error and returns false without raising — but the
`serviceIds` entry created at the start of the scan remains, so tracked
state *is* left behind for the vanished service, contrary to the
claim's "leaving no tracked state". -/
theorem scan_abort_leaves_serviceIds_entry :
    (scan_dbus_service exBusVanish exTree false st0 exName).1 = .ok false ∧
    lookupA (scan_dbus_service exBusVanish exTree false st0 exName).2.1.serviceIds exSid =
      some ⟨exName, []⟩ := by
  exact ⟨by decide, by decide⟩

/-- C7 (amended): a failure while resolving the bus identity itself
(`get_name_owner` sits outside the `try`) propagates to the caller,
whatever its kind.  After the identity is resolved — which immediately
creates the `serviceIds` entry — a device-instance read failing with
unknown-service/disconnected makes the scan return false without
raising, and any other bus error there propagates; in both cases
nothing is added to `items`, no fetches are outstanding, but the
`serviceIds` entry for the resolved identity is left in place. -/
theorem scan_vanish_behaviour (bus : Bus)
    (tree : List (String × List (String × Options))) (flag : Bool)
    (st : MonState) (nm : String) (ps : List (String × Options))
    (htree : lookupA tree (serviceClass nm) = some ps) (hps : ¬ ps = [])
    (hitems : lookupA st.items nm = none)
    (hnleg : ¬(nm = "com.victronenergy.vebus.ttyO1" ∧ flag = true)) :
    (∀ e0, bus.nameOwner nm = .error e0 →
      scan_dbus_service bus tree flag st nm = (.error (.dbusException e0), st, [])) ∧
    (∀ sid e, bus.nameOwner nm = .ok sid →
      bus.deviceInstanceValue nm = .error e →
      (scan_dbus_service bus tree flag st nm).2.1.items = st.items ∧
      lookupA (scan_dbus_service bus tree flag st nm).2.1.serviceIds sid = some ⟨nm, []⟩ ∧
      (scan_dbus_service bus tree flag st nm).2.2 = [] ∧
      (catchableBusErr e = true →
        (scan_dbus_service bus tree flag st nm).1 = .ok false) ∧
      (catchableBusErr e = false →
        (scan_dbus_service bus tree flag st nm).1 = .error (.dbusException e))) := by
  constructor
  · intro e0 howner
    exact scan_owner_error bus tree flag st nm ps e0 htree hps hitems howner
  · intro sid e howner hdi
    rw [scan_device_error bus tree flag st nm sid ps e htree hps hitems howner hnleg hdi]
    refine ⟨rfl, lookupA_updateA_self _ _ _, rfl, ?_, ?_⟩
    · intro hc; simp [hc]
    · intro hc; simp [hc]

/-- C7 witness: the amended theorem applied to the vanish-mid-scan
bus. -/
theorem scan_vanish_behaviour_witness :
    (scan_dbus_service exBusVanish exTree false st0 exName).1 = .ok false :=
  ((scan_vanish_behaviour exBusVanish exTree false st0 exName [("/Soc", exOpts)]
      (by decide) (by decide) (by decide) (by decide)).2 exSid
      ⟨"org.freedesktop.DBus.Error.ServiceUnknown"⟩ (by decide)
      (by decide)).2.2.2.1 (by decide)

theorem scanAfterDI_ok_true_items (bus : Bus) (nm sid : String)
    (ps : List (String × Options)) (st1 : MonState) (di : Int)
    (h : (scanAfterDeviceInstance bus nm sid ps st1 di).1 = .ok true) :
    lookupA (scanAfterDeviceInstance bus nm sid ps st1 di).2.1.items nm ≠ none := by
  cases hs : bus.addSignalReceiver nm with
  | error e =>
    by_cases hcatch : catchableBusErr e
    · simp [scanAfterDeviceInstance, hs, hcatch] at h
    · simp [scanAfterDeviceInstance, hs, hcatch] at h
  | ok h' =>
    rw [scanAfterDI_success bus nm sid ps st1 di h' hs]
    simp [lookupA_updateA_self]

theorem gslGo_not_mem (cf : Option String) :
    ∀ (l : List (String × Service)) (r : List (String × Int)) (k : String),
    k ∉ l.map Prod.fst → lookupA r k = none → lookupA (gslGo cf l r) k = none := by
  intro l
  induction l with
  | nil => intro r k _ hr; exact hr
  | cons hd t ih =>
    intro r k h hr
    obtain ⟨q, svc⟩ := hd
    simp only [List.map_cons, List.mem_cons, not_or] at h
    have hqk : q ≠ k := fun hq => h.1 hq.symm
    by_cases hm : classMatches cf q = true
    · have hr' : lookupA (updateA r q svc.deviceInstance) k = none := by
        rw [lookupA_updateA_ne r q k _ hqk]; exact hr
      simpa [gslGo, hm] using ih _ k h.2 hr'
    · simpa [gslGo, hm] using ih _ k h.2 hr

theorem scan_items_of_ne (bus : Bus)
    (tree : List (String × List (String × Options))) (flag : Bool)
    (st : MonState) (nm : String)
    (h : (scan_dbus_service bus tree flag st nm).1 ≠ .ok true) :
    (scan_dbus_service bus tree flag st nm).2.1.items = st.items := by
  cases h1 : lookupA tree (serviceClass nm) with
  | none => rw [scan_not_in_tree bus tree flag st nm h1]
  | some ps =>
    by_cases h2 : ps = []
    · have heq : scan_dbus_service bus tree flag st nm = (.ok false, st, []) := by
        simp [scan_dbus_service, h1, h2]
      rw [heq]
    · by_cases h3 : lookupA st.items nm = none
      · cases h4 : bus.nameOwner nm with
        | error e0 => rw [scan_owner_error bus tree flag st nm ps e0 h1 h2 h3 h4]
        | ok sid =>
          by_cases h5 : nm = "com.victronenergy.vebus.ttyO1" ∧ flag = true
          · obtain ⟨h5a, h5b⟩ := h5
            subst h5a
            rw [scan_reduces_to_after_legacy bus tree flag st sid ps h1 h2 h3 h4 h5b] at h ⊢
            exact scanAfterDI_items_of_ne bus _ sid ps _ 0 h
          · cases h6 : bus.deviceInstanceValue nm with
            | error e =>
              rw [scan_device_error bus tree flag st nm sid ps e h1 h2 h3 h4 h5 h6]
            | ok v =>
              cases h7 : pyInt0 v with
              | error pe =>
                rw [scan_device_parse_error bus tree flag st nm sid ps v pe h1 h2 h3 h4 h5 h6 h7]
              | ok di =>
                rw [scan_reduces_to_after bus tree flag st nm sid ps v di h1 h2 h3 h4 h5 h6 h7]
                  at h ⊢
                exact scanAfterDI_items_of_ne bus nm sid ps _ di h
      · have hsome : (lookupA st.items nm).isSome = true := by
          cases hx : lookupA st.items nm with
          | none => exact absurd hx h3
          | some _ => rfl
        have heq : scan_dbus_service bus tree flag st nm = (.error .assertionError, st, []) := by
          simp [scan_dbus_service, h1, h2, hsome]
        rw [heq]

theorem scan_ok_true_items (bus : Bus)
    (tree : List (String × List (String × Options))) (flag : Bool)
    (st : MonState) (nm : String)
    (h : (scan_dbus_service bus tree flag st nm).1 = .ok true) :
    lookupA (scan_dbus_service bus tree flag st nm).2.1.items nm ≠ none := by
  cases h1 : lookupA tree (serviceClass nm) with
  | none => rw [scan_not_in_tree bus tree flag st nm h1] at h; exact absurd h (by simp)
  | some ps =>
    by_cases h2 : ps = []
    · have heq : scan_dbus_service bus tree flag st nm = (.ok false, st, []) := by
        simp [scan_dbus_service, h1, h2]
      rw [heq] at h; exact absurd h (by simp)
    · by_cases h3 : lookupA st.items nm = none
      · cases h4 : bus.nameOwner nm with
        | error e0 =>
          rw [scan_owner_error bus tree flag st nm ps e0 h1 h2 h3 h4] at h
          exact absurd h (by simp)
        | ok sid =>
          by_cases h5 : nm = "com.victronenergy.vebus.ttyO1" ∧ flag = true
          · obtain ⟨h5a, h5b⟩ := h5
            subst h5a
            rw [scan_reduces_to_after_legacy bus tree flag st sid ps h1 h2 h3 h4 h5b] at h ⊢
            exact scanAfterDI_ok_true_items bus _ sid ps _ 0 h
          · cases h6 : bus.deviceInstanceValue nm with
            | error e =>
              rw [scan_device_error bus tree flag st nm sid ps e h1 h2 h3 h4 h5 h6] at h
              by_cases hcatch : catchableBusErr e <;> simp [hcatch] at h
            | ok v =>
              cases h7 : pyInt0 v with
              | error pe =>
                rw [scan_device_parse_error bus tree flag st nm sid ps v pe h1 h2 h3 h4 h5 h6 h7]
                  at h
                exact absurd h (by simp)
              | ok di =>
                rw [scan_reduces_to_after bus tree flag st nm sid ps v di h1 h2 h3 h4 h5 h6 h7]
                  at h ⊢
                exact scanAfterDI_ok_true_items bus nm sid ps _ di h
      · have hsome : (lookupA st.items nm).isSome = true := by
          cases hx : lookupA st.items nm with
          | none => exact absurd hx h3
          | some _ => rfl
        have heq : scan_dbus_service bus tree flag st nm = (.error .assertionError, st, []) := by
          simp [scan_dbus_service, h1, h2, hsome]
        rw [heq] at h; exact absurd h (by simp)

/-- C6: a service name becomes visible to `get_service_list` and
`get_value` only after its scan fully completed: `self.items` is
modified only by the single final commit (line 180), so a scan that
does not return true leaves `items` exactly as it was, `get_value` for
the scanned name still yields the caller's default and
`get_service_list` still excludes the name; a scan returning true has
committed the built service. -/
theorem scan_atomic_publish (bus : Bus)
    (tree : List (String × List (String × Options))) (flag : Bool)
    (st : MonState) (nm : String) :
    ((scan_dbus_service bus tree flag st nm).1 ≠ .ok true →
      (scan_dbus_service bus tree flag st nm).2.1.items = st.items) ∧
    ((scan_dbus_service bus tree flag st nm).1 = .ok true →
      lookupA (scan_dbus_service bus tree flag st nm).2.1.items nm ≠ none) ∧
    (lookupA st.items nm = none →
      (scan_dbus_service bus tree flag st nm).1 ≠ .ok true →
      (∀ p d, get_value (scan_dbus_service bus tree flag st nm).2.1 nm p d = .ok d) ∧
      ∀ cf, lookupA (get_service_list (scan_dbus_service bus tree flag st nm).2.1 cf) nm = none) := by
  refine ⟨scan_items_of_ne bus tree flag st nm, scan_ok_true_items bus tree flag st nm, ?_⟩
  intro hnone hne
  have hit := scan_items_of_ne bus tree flag st nm hne
  constructor
  · intro p d
    simp [get_value, hit, hnone]
  · intro cf
    rw [get_service_list, hit]
    exact gslGo_not_mem cf st.items [] nm ((lookupA_eq_none_iff st.items nm).mp hnone) rfl

/-- C6 witness: after the aborted scan on the vanish bus, the scanned
name is invisible to `get_value` and `get_service_list`. -/
theorem scan_atomic_publish_witness :
    get_value (scan_dbus_service exBusVanish exTree false st0 exName).2.1 exName "/Soc"
        (Value.VInt (-1)) = .ok (Value.VInt (-1)) ∧
    lookupA (get_service_list (scan_dbus_service exBusVanish exTree false st0 exName).2.1 none)
        exName = none :=
  ⟨((scan_atomic_publish exBusVanish exTree false st0 exName).2.2 (by decide)
      (by decide)).1 "/Soc" (Value.VInt (-1)),
   ((scan_atomic_publish exBusVanish exTree false st0 exName).2.2 (by decide)
      (by decide)).2 none⟩

theorem scan_ok_true_inversion (bus : Bus)
    (tree : List (String × List (String × Options))) (flag : Bool)
    (st : MonState) (nm : String)
    (h : (scan_dbus_service bus tree flag st nm).1 = .ok true) :
    ∃ ps sid di h', lookupA tree (serviceClass nm) = some ps ∧
      scan_dbus_service bus tree flag st nm =
        (.ok true,
         ⟨updateA st.items nm (scanResultService bus nm sid ps di h'),
          updateA (updateA st.serviceIds sid ⟨nm, []⟩) sid
            ⟨nm, scanResultPaths bus nm sid ps di⟩⟩,
         scanResultPends bus nm sid ps di) := by
  cases h1 : lookupA tree (serviceClass nm) with
  | none => rw [scan_not_in_tree bus tree flag st nm h1] at h; exact absurd h (by simp)
  | some ps =>
    by_cases h2 : ps = []
    · have heq : scan_dbus_service bus tree flag st nm = (.ok false, st, []) := by
        simp [scan_dbus_service, h1, h2]
      rw [heq] at h; exact absurd h (by simp)
    · by_cases h3 : lookupA st.items nm = none
      · cases h4 : bus.nameOwner nm with
        | error e0 =>
          rw [scan_owner_error bus tree flag st nm ps e0 h1 h2 h3 h4] at h
          exact absurd h (by simp)
        | ok sid =>
          by_cases h5 : nm = "com.victronenergy.vebus.ttyO1" ∧ flag = true
          · obtain ⟨h5a, h5b⟩ := h5
            subst h5a
            have heq1 := scan_reduces_to_after_legacy bus tree flag st sid ps h1 h2 h3 h4 h5b
            rw [heq1] at h
            cases hs : bus.addSignalReceiver "com.victronenergy.vebus.ttyO1" with
            | error e =>
              by_cases hcatch : catchableBusErr e <;>
                simp [scanAfterDeviceInstance, hs, hcatch] at h
            | ok h' =>
              refine ⟨ps, sid, 0, h', rfl, ?_⟩
              rw [heq1, scanAfterDI_success bus _ sid ps _ 0 h' hs]
          · cases h6 : bus.deviceInstanceValue nm with
            | error e =>
              rw [scan_device_error bus tree flag st nm sid ps e h1 h2 h3 h4 h5 h6] at h
              by_cases hcatch : catchableBusErr e <;> simp [hcatch] at h
            | ok v =>
              cases h7 : pyInt0 v with
              | error pe =>
                rw [scan_device_parse_error bus tree flag st nm sid ps v pe h1 h2 h3 h4 h5 h6 h7]
                  at h
                exact absurd h (by simp)
              | ok di =>
                have heq1 := scan_reduces_to_after bus tree flag st nm sid ps v di h1 h2 h3 h4 h5 h6 h7
                rw [heq1] at h
                cases hs : bus.addSignalReceiver nm with
                | error e =>
                  by_cases hcatch : catchableBusErr e <;>
                    simp [scanAfterDeviceInstance, hs, hcatch] at h
                | ok h' =>
                  refine ⟨ps, sid, di, h', rfl, ?_⟩
                  rw [heq1, scanAfterDI_success bus nm sid ps _ di h' hs]
      · have hsome : (lookupA st.items nm).isSome = true := by
          cases hx : lookupA st.items nm with
          | none => exact absurd hx h3
          | some _ => rfl
        have heq : scan_dbus_service bus tree flag st nm = (.error .assertionError, st, []) := by
          simp [scan_dbus_service, h1, h2, hsome]
        rw [heq] at h; exact absurd h (by simp)

/-- C4 (counterexample): immediately after `scan` returns true on a bus
whose `/Soc` fetch was issued asynchronously (the normal case), the
cache holds *no* entry keyed `(bus identity, "/Soc")` — the entry is
only created later by the fetch completion, not "with null value when
the scan begins" as the claim states. -/
theorem scan_true_but_no_cache_entry :
    (scan_dbus_service exBusP exTree false st0 exName).1 = .ok true ∧
    ((lookupA (scan_dbus_service exBusP exTree false st0 exName).2.1.serviceIds exSid).bind
        fun e => lookupA e.paths "/Soc") = none := by
  exact ⟨by decide, by decide⟩

/-- C4 (amended): after `scan(serviceName)` returns true, every schema
path for the matched prefix either already has a cache entry keyed
(bus identity, path) — created with null value synchronously when
issuing its fetch raised — or has exactly one outstanding fetch
completion recorded for it; and delivering any outstanding completion
to a state that still tracks the bus identity creates the cache entry
(fetched value on success, null on failure).  Entries are thus created
by completions or at issue-failure time, not when the scan begins. -/
theorem scan_cache_entry_or_pending (bus : Bus)
    (tree : List (String × List (String × Options))) (flag : Bool)
    (st : MonState) (nm : String)
    (h : (scan_dbus_service bus tree flag st nm).1 = .ok true) :
    (∃ ps svc e, lookupA tree (serviceClass nm) = some ps ∧
      lookupA (scan_dbus_service bus tree flag st nm).2.1.items nm = some svc ∧
      lookupA (scan_dbus_service bus tree flag st nm).2.1.serviceIds svc.serviceId = some e ∧
      ∀ po ∈ ps, lookupA e.paths po.1 ≠ none ∨
        ∃ pd ∈ (scan_dbus_service bus tree flag st nm).2.2,
          pd.serviceId = svc.serviceId ∧ pd.path = po.1 ∧ pd.options = po.2) ∧
    (∀ (pd : Pending) (st2 : MonState) e2,
      lookupA st2.serviceIds pd.serviceId = some e2 →
      ∃ st3, applyPending st2 pd = .ok st3 ∧
        ∃ e3, lookupA st3.serviceIds pd.serviceId = some e3 ∧
          lookupA e3.paths pd.path = some (pendingValue pd, pd.options)) := by
  constructor
  · obtain ⟨ps, sid, di, h', htree, heq⟩ := scan_ok_true_inversion bus tree flag st nm h
    have hsvcid : (scanResultService bus nm sid ps di h').serviceId = sid :=
      (scanPaths_core bus nm sid ps (initService sid di) [] []).1
    refine ⟨ps, scanResultService bus nm sid ps di h',
      ⟨nm, scanResultPaths bus nm sid ps di⟩, htree, ?_, ?_, ?_⟩
    · rw [heq]; exact lookupA_updateA_self _ _ _
    · rw [heq, hsvcid]; exact lookupA_updateA_self _ _ _
    · intro po hpo
      rw [heq]
      have := scanPaths_entries bus nm sid ps (initService sid di) [] [] po hpo
      rcases this with hl | ⟨pd, hpd, hsid, hpath, hopts⟩
      · exact Or.inl hl
      · exact Or.inr ⟨pd, hpd, by rw [hsid, hsvcid], hpath, hopts⟩
  · intro pd st2 e2 he2
    cases ho : pd.outcome with
    | success v =>
      refine ⟨{ st2 with serviceIds := updateA st2.serviceIds pd.serviceId ⟨e2.name, updateA e2.paths pd.path (unwrapDbusValue v, pd.options)⟩ }, ?_, ⟨e2.name, updateA e2.paths pd.path (unwrapDbusValue v, pd.options)⟩, ?_, ?_⟩
      · simp [applyPending, ho, set_value_callback, he2]
      · exact lookupA_updateA_self _ _ _
      · simp [pendingValue, ho, lookupA_updateA_self]
    | failure =>
      refine ⟨{ st2 with serviceIds := updateA st2.serviceIds pd.serviceId ⟨e2.name, updateA e2.paths pd.path (Value.VNull, pd.options)⟩ }, ?_, ⟨e2.name, updateA e2.paths pd.path (Value.VNull, pd.options)⟩, ?_, ?_⟩
      · simp [applyPending, ho, set_value_error, he2]
      · exact lookupA_updateA_self _ _ _
      · simp [pendingValue, ho, lookupA_updateA_self]

/-- C4 witness: the amended theorem on the concrete successful scan. -/
theorem scan_cache_entry_or_pending_witness :
    ∃ ps svc e, lookupA exTree (serviceClass exName) = some ps ∧
      lookupA (scan_dbus_service exBusP exTree false st0 exName).2.1.items exName = some svc ∧
      lookupA (scan_dbus_service exBusP exTree false st0 exName).2.1.serviceIds svc.serviceId = some e ∧
      ∀ po ∈ ps, lookupA e.paths po.1 ≠ none ∨
        ∃ pd ∈ (scan_dbus_service exBusP exTree false st0 exName).2.2,
          pd.serviceId = svc.serviceId ∧ pd.path = po.1 ∧ pd.options = po.2 :=
  (scan_cache_entry_or_pending exBusP exTree false st0 exName (by decide)).1

theorem bucket_appendBucket (s : Service) (c' : Category) (q : String) (c : Category) :
    (s.appendBucket c' q).bucket c =
      if c = c' then s.bucket c ++ [q] else s.bucket c := by
  cases c <;> cases c' <;> simp [Service.appendBucket, Service.bucket]

theorem scanPaths_bucket_mem (bus : Bus) (nm sid : String) :
    ∀ (ps : List (String × Options)) (svc : Service)
      (sidPaths : List (String × (Value × Options))) (pends : List Pending)
      (c : Category) (q : String),
    q ∈ (scanPaths bus nm sid ps svc sidPaths pends).1.bucket c →
    q ∈ svc.bucket c ∨ ∃ o', (q, o') ∈ ps ∧ o'.whenToLog = some c := by
  intro ps
  induction ps with
  | nil => intro svc sidPaths pends c q h; exact Or.inl h
  | cons hd t ih =>
    intro svc sidPaths pends c q h
    obtain ⟨q', o'⟩ := hd
    have step : ∀ (svc' : Service) sidPaths' pends',
        q ∈ (scanPaths bus nm sid t svc' sidPaths' pends').1.bucket c →
        q ∈ svc'.bucket c ∨ ∃ o'', (q, o'') ∈ t ∧ o''.whenToLog = some c :=
      fun svc' sidPaths' pends' => ih svc' sidPaths' pends' c q
    cases hwl : o'.whenToLog with
    | none =>
      cases hc : bus.callGetValueAsync nm q' with
      | error e =>
        have h2 := step svc (updateA sidPaths q' (Value.VNull, o')) pends
          (by simpa [scanPaths, hc, hwl] using h)
        rcases h2 with h2 | ⟨o'', ho1, ho2⟩
        · exact Or.inl h2
        · exact Or.inr ⟨o'', List.mem_cons_of_mem _ ho1, ho2⟩
      | ok oc =>
        have h2 := step svc sidPaths (pends ++ [⟨sid, q', o', oc⟩])
          (by simpa [scanPaths, hc, hwl] using h)
        rcases h2 with h2 | ⟨o'', ho1, ho2⟩
        · exact Or.inl h2
        · exact Or.inr ⟨o'', List.mem_cons_of_mem _ ho1, ho2⟩
    | some c' =>
      have hb : ∀ hq : q ∈ (svc.appendBucket c' q').bucket c,
          q ∈ svc.bucket c ∨ ∃ o'', (q, o'') ∈ (q', o') :: t ∧ o''.whenToLog = some c := by
        intro hq
        rw [bucket_appendBucket] at hq
        by_cases hcc : c = c'
        · rw [if_pos hcc] at hq
          rcases List.mem_append.mp hq with hq | hq
          · exact Or.inl hq
          · have : q = q' := by simpa using hq
            subst this
            exact Or.inr ⟨o', List.mem_cons_self _ _, by rw [hwl, hcc]⟩
        · rw [if_neg hcc] at hq
          exact Or.inl hq
      cases hc : bus.callGetValueAsync nm q' with
      | error e =>
        have h2 := step (svc.appendBucket c' q') (updateA sidPaths q' (Value.VNull, o')) pends
          (by simpa [scanPaths, hc, hwl] using h)
        rcases h2 with h2 | ⟨o'', ho1, ho2⟩
        · exact hb h2
        · exact Or.inr ⟨o'', List.mem_cons_of_mem _ ho1, ho2⟩
      | ok oc =>
        have h2 := step (svc.appendBucket c' q') sidPaths (pends ++ [⟨sid, q', o', oc⟩])
          (by simpa [scanPaths, hc, hwl] using h)
        rcases h2 with h2 | ⟨o'', ho1, ho2⟩
        · exact hb h2
        · exact Or.inr ⟨o'', List.mem_cons_of_mem _ ho1, ho2⟩

theorem mem_unique_of_nodup {α : Type} (l : List (String × α))
    (hn : (l.map Prod.fst).Nodup) {k : String} {a b : α} :
    (k, a) ∈ l → (k, b) ∈ l → a = b := by
  induction l with
  | nil => intro h; exact absurd h (List.not_mem_nil _)
  | cons hd t ih =>
    intro ha hb
    simp only [List.map_cons, List.nodup_cons] at hn
    rcases List.mem_cons.mp ha with ha | ha <;> rcases List.mem_cons.mp hb with hb | hb
    · exact congrArg Prod.snd (ha.trans hb.symm)
    · rw [← ha] at hn
      exact absurd (List.mem_map_of_mem Prod.fst hb) hn.1
    · rw [← hb] at hn
      exact absurd (List.mem_map_of_mem Prod.fst ha) hn.1
    · exact ih hn.2 ha hb

theorem processCats_of_empty_buckets (cb : String → Option (Value × Options))
    (conv : Option (String → Value → Value)) (di : Int)
    (bucketFn : Category → List String) (hb : ∀ c, bucketFn c = []) :
    ∀ (cats : List Category) (r : List (String × Value)),
    processCats cb conv di bucketFn cats r = .ok r := by
  intro cats
  induction cats with
  | nil => intro r; rfl
  | cons c t ih =>
    intro r
    simp [processCats, hb c, processPaths, ih r]

/-- C10: a schema path whose options carry a null `whenToLog` label
passes the scan's `assert` and is placed in *no* category bucket
(`if options['whenToLog']:` is falsy) — first conjunct, for any schema
with distinct path keys; and (second conjunct, for a one-path schema)
the scan still issues its asynchronous fetch, whose completion caches
the value so that `get_value` returns it, while
`get_values_for_service` output stays empty for every category
filter. -/
theorem nolog_path_behaviour :
    (∀ (bus : Bus) (tree : List (String × List (String × Options)))
      (flag : Bool) (st : MonState) (nm : String),
      (scan_dbus_service bus tree flag st nm).1 = .ok true →
      ∀ ps, lookupA tree (serviceClass nm) = some ps →
      (ps.map Prod.fst).Nodup →
      ∀ po ∈ ps, po.2.whenToLog = none →
      ∀ svc, lookupA (scan_dbus_service bus tree flag st nm).2.1.items nm = some svc →
      ∀ c, po.1 ∉ svc.bucket c) ∧
    (∀ (bus : Bus) (flag : Bool) (st : MonState) (nm sid p : String)
      (o : Options) (v : Value) (h' : Nat) (di : Int) (d : Value),
      o.whenToLog = none →
      lookupA st.items nm = none →
      bus.nameOwner nm = .ok sid →
      ¬(nm = "com.victronenergy.vebus.ttyO1" ∧ flag = true) →
      bus.deviceInstanceValue nm = .ok (.VInt di) →
      bus.callGetValueAsync nm p = .ok (.success v) →
      bus.addSignalReceiver nm = .ok h' →
      (scan_dbus_service bus [(serviceClass nm, [(p, o)])] flag st nm).1 = .ok true ∧
      (scan_dbus_service bus [(serviceClass nm, [(p, o)])] flag st nm).2.2 =
        [⟨sid, p, o, .success v⟩] ∧
      ∃ st2, applyPending
          (scan_dbus_service bus [(serviceClass nm, [(p, o)])] flag st nm).2.1
          ⟨sid, p, o, .success v⟩ = .ok st2 ∧
        get_value st2 nm p d = .ok v ∧
        ∀ cats conv, get_values_for_service st2 cats nm conv = .ok []) := by
  constructor
  · intro bus tree flag st nm h ps htree hnd po hpo hwl svc hsvc c hmem
    obtain ⟨ps', sid, di, h', htree', heq⟩ := scan_ok_true_inversion bus tree flag st nm h
    rw [htree] at htree'
    obtain rfl : ps = ps' := Option.some.inj htree'
    rw [heq] at hsvc
    rw [lookupA_updateA_self st.items nm (scanResultService bus nm sid ps di h')] at hsvc
    obtain rfl : svc = scanResultService bus nm sid ps di h' :=
      (Option.some.inj hsvc).symm
    have hbk : ∀ c', (scanResultService bus nm sid ps di h').bucket c' =
        (scanPaths bus nm sid ps (initService sid di) [] []).1.bucket c' := by
      intro c'; cases c' <;> rfl
    rw [hbk c] at hmem
    rcases scanPaths_bucket_mem bus nm sid ps (initService sid di) [] [] c po.1 hmem
      with hx | ⟨o', ho1, ho2⟩
    · have hempty : (initService sid di).bucket c = [] := by cases c <;> rfl
      rw [hempty] at hx
      exact absurd hx (List.not_mem_nil _)
    · have ho' : o' = po.2 := mem_unique_of_nodup ps hnd ho1 hpo
      rw [ho', hwl] at ho2
      exact Option.noConfusion ho2
  · intro bus flag st nm sid p o v h' di d ho hitems howner hnleg hdi hasync hsig
    have htree : lookupA [(serviceClass nm, [(p, o)])] (serviceClass nm) = some [(p, o)] := by
      simp [lookupA]
    have heq1 := scan_reduces_to_after bus [(serviceClass nm, [(p, o)])] flag st nm sid
      [(p, o)] (.VInt di) di htree (by simp) hitems howner hnleg hdi rfl
    have hpaths : scanPaths bus nm sid [(p, o)] (initService sid di) [] [] =
        (initService sid di, [], [⟨sid, p, o, .success v⟩]) := by
      simp [scanPaths, hasync, ho]
    have hscan : scan_dbus_service bus [(serviceClass nm, [(p, o)])] flag st nm =
        (.ok true,
         ⟨updateA st.items nm ⟨sid, di, [], [], [], [], h'⟩,
          updateA (updateA st.serviceIds sid ⟨nm, []⟩) sid ⟨nm, []⟩⟩,
         [⟨sid, p, o, .success v⟩]) := by
      rw [heq1, scanAfterDI_success bus nm sid [(p, o)] _ di h' hsig]
      simp only [scanResultService, scanResultPaths, scanResultPends]
      rw [hpaths]
      simp [initService]
    refine ⟨by rw [hscan], by rw [hscan], ?_⟩
    have hlook : lookupA (updateA (updateA st.serviceIds sid ⟨nm, []⟩) sid
        (⟨nm, []⟩ : SIdEntry)) sid = some ⟨nm, []⟩ := lookupA_updateA_self _ _ _
    refine ⟨⟨updateA st.items nm ⟨sid, di, [], [], [], [], h'⟩, updateA (updateA (updateA st.serviceIds sid ⟨nm, []⟩) sid ⟨nm, []⟩) sid ⟨nm, [(p, (v, o))]⟩⟩, ?_, ?_, ?_⟩
    · rw [hscan]
      simp [applyPending, set_value_callback, hlook, unwrapDbusValue, updateA]
    · simp [get_value, lookupA_updateA_self, lookupA]
    · intro cats conv
      simp only [get_values_for_service, lookupA_updateA_self]
      exact processCats_of_empty_buckets _ conv di _ (fun c => by cases c <;> rfl) cats []

/-- C10 witness: the serial-number scenario — `/Serial` with null
`whenToLog`, fetched value a string — instantiating both parts. -/
theorem nolog_path_behaviour_witness :
    (∀ svc, lookupA (scan_dbus_service exBusN
        [(serviceClass exName, [("/Serial", exOptsN)])] false st0 exName).2.1.items
        exName = some svc →
      ∀ c, "/Serial" ∉ svc.bucket c) ∧
    ∃ st2, applyPending (scan_dbus_service exBusN
        [(serviceClass exName, [("/Serial", exOptsN)])] false st0 exName).2.1
        ⟨exSid, "/Serial", exOptsN, .success (.VStr "HQ1234ABCD")⟩ = .ok st2 ∧
      get_value st2 exName "/Serial" (Value.VInt (-1)) = .ok (.VStr "HQ1234ABCD") ∧
      ∀ cats conv, get_values_for_service st2 cats exName conv = .ok [] :=
  ⟨fun svc hsvc c =>
    nolog_path_behaviour.1 exBusN [(serviceClass exName, [("/Serial", exOptsN)])]
      false st0 exName (by decide) [("/Serial", exOptsN)] (by decide) (by decide)
      ("/Serial", exOptsN) (by decide) (by decide) svc hsvc c,
   (nolog_path_behaviour.2 exBusN false st0 exName exSid "/Serial" exOptsN
      (.VStr "HQ1234ABCD") 7 2 (Value.VInt (-1)) (by decide) (by decide) (by decide)
      (by decide) (by decide) (by decide) (by decide)).2.2⟩

/-! ## Lemmas for the `get_values` refinement (C8) -/

theorem lookupA_of_mem_nodup {α : Type} (l : List (String × α))
    (hn : (l.map Prod.fst).Nodup) {k : String} {a : α} (h : (k, a) ∈ l) :
    lookupA l k = some a := by
  induction l with
  | nil => exact absurd h (List.not_mem_nil _)
  | cons hd t ih =>
    simp only [List.map_cons, List.nodup_cons] at hn
    rcases List.mem_cons.mp h with h | h
    · rw [← h]
      simp [lookupA]
    · have hne : hd.1 ≠ k := by
        intro he
        exact hn.1 (he ▸ List.mem_map_of_mem Prod.fst h)
      simp only [lookupA, if_neg hne]
      exact ih hn.2 h

theorem map_fst_flatMap {α β γ : Type} (l : List α) (f : α → List (β × γ)) :
    (l.flatMap f).map Prod.fst = l.flatMap fun a => (f a).map Prod.fst := by
  induction l with
  | nil => rfl
  | cons hd t ih => simp [ih]

theorem nodup_of_mem_flatMap {α β : Type} (f : α → List β) :
    ∀ (l : List α), (l.flatMap f).Nodup → ∀ a ∈ l, (f a).Nodup := by
  intro l
  induction l with
  | nil => intro _ a ha; exact absurd ha (List.not_mem_nil a)
  | cons hd t ih =>
    intro h a ha
    rw [List.flatMap_cons] at h
    rw [List.nodup_append] at h
    rcases List.mem_cons.mp ha with ha | ha
    · rw [ha]; exact h.1
    · exact ih h.2.1 a ha

theorem roundStep_entry (conv : Option (String → Value → Value)) (o : Options)
    (v : Value) (h : entryRoundOkB conv o v = true) :
    roundStep o.precision (applyConv conv o.code v) = .ok (specPipeline conv o v) := by
  unfold entryRoundOkB at h
  unfold specPipeline specRound roundStep
  cases hp : o.precision with
  | none => rfl
  | some n =>
    cases n with
    | zero => rfl
    | succ m =>
      rw [hp] at h
      cases hc : applyConv conv o.code v with
      | VNull => rw [hc] at h; exact absurd h (by simp)
      | VInt k => simp [pyRound]
      | VStr s => rw [hc] at h; exact absurd h (by simp)

theorem processPaths_eq_spec (cb : String → Option (Value × Options))
    (conv : Option (String → Value → Value)) (di : Int) :
    ∀ (ps : List String) (r : List (String × Value)),
    (∀ p ∈ ps, pathRoundOkB cb conv p = true) →
    ((ps.filterMap (specEntryOfPath cb conv di)).map Prod.fst).Nodup →
    (∀ k ∈ (ps.filterMap (specEntryOfPath cb conv di)).map Prod.fst,
      k ∉ r.map Prod.fst) →
    processPaths cb conv di ps r =
      .ok (r ++ ps.filterMap (specEntryOfPath cb conv di)) := by
  intro ps
  induction ps with
  | nil => intro r _ _ _; simp [processPaths]
  | cons p t ih =>
    intro r hall hnd hfr
    have hallt : ∀ q ∈ t, pathRoundOkB cb conv q = true :=
      fun q hq => hall q (List.mem_cons_of_mem _ hq)
    cases hcb : cb p with
    | none =>
      have hent : specEntryOfPath cb conv di p = none := by
        simp [specEntryOfPath, hcb]
      rw [List.filterMap_cons_none hent] at hnd hfr ⊢
      simp only [processPaths, hcb]
      exact ih r hallt hnd hfr
    | some vo =>
      obtain ⟨v, o⟩ := vo
      by_cases hv : v = Value.VNull
      · subst hv
        have hent : specEntryOfPath cb conv di p = none := by
          simp [specEntryOfPath, hcb]
        rw [List.filterMap_cons_none hent] at hnd hfr ⊢
        simp only [processPaths, hcb, if_pos rfl]
        exact ih r hallt hnd hfr
      · have hrok : entryRoundOkB conv o v = true := by
          have hh := hall p (List.mem_cons_self _ _)
          unfold pathRoundOkB at hh
          rw [hcb] at hh
          simpa [hv] using hh
        have hent : specEntryOfPath cb conv di p =
            some (mkKey o.code di, specPipeline conv o v) := by
          simp [specEntryOfPath, hcb, hv]
        rw [List.filterMap_cons_some hent] at hnd hfr ⊢
        have hkey : mkKey o.code di ∉ r.map Prod.fst :=
          hfr (mkKey o.code di) (by simp)
        simp only [processPaths, hcb, if_neg hv, roundStep_entry conv o v hrok]
        rw [updateA_of_not_mem r _ _ hkey]
        simp only [List.map_cons, List.nodup_cons] at hnd
        have hfr' : ∀ k ∈ (t.filterMap (specEntryOfPath cb conv di)).map Prod.fst,
            k ∉ (r ++ [(mkKey o.code di, specPipeline conv o v)]).map Prod.fst := by
          intro k hk
          simp only [List.map_append, List.mem_append, List.map_cons, List.map_nil,
            List.mem_singleton, not_or]
          exact ⟨hfr k (by simp [hk]), fun he => hnd.1 (he ▸ hk)⟩
        rw [ih (r ++ [(mkKey o.code di, specPipeline conv o v)]) hallt hnd.2 hfr']
        simp

theorem processCats_eq_spec (cb : String → Option (Value × Options))
    (conv : Option (String → Value → Value)) (di : Int)
    (bucketFn : Category → List String) :
    ∀ (cats : List Category) (r : List (String × Value)),
    (∀ c ∈ cats, ∀ p ∈ bucketFn c, pathRoundOkB cb conv p = true) →
    ((cats.flatMap fun c => (bucketFn c).filterMap (specEntryOfPath cb conv di)).map
      Prod.fst).Nodup →
    (∀ k ∈ (cats.flatMap fun c =>
        (bucketFn c).filterMap (specEntryOfPath cb conv di)).map Prod.fst,
      k ∉ r.map Prod.fst) →
    processCats cb conv di bucketFn cats r =
      .ok (r ++ cats.flatMap fun c => (bucketFn c).filterMap (specEntryOfPath cb conv di)) := by
  intro cats
  induction cats with
  | nil => intro r _ _ _; simp [processCats]
  | cons c t ih =>
    intro r hall hnd hfr
    rw [List.flatMap_cons] at hnd hfr ⊢
    rw [List.map_append, List.nodup_append] at hnd
    have hstep := processPaths_eq_spec cb conv di (bucketFn c) r
      (hall c (List.mem_cons_self _ _)) hnd.1
      (fun k hk => hfr k (by rw [List.map_append]; exact List.mem_append_left _ hk))
    simp only [processCats, hstep]
    have hfr' : ∀ k ∈ (t.flatMap fun c' =>
        (bucketFn c').filterMap (specEntryOfPath cb conv di)).map Prod.fst,
        k ∉ (r ++ (bucketFn c).filterMap (specEntryOfPath cb conv di)).map Prod.fst := by
      intro k hk
      rw [List.map_append, List.mem_append]
      rintro (hk1 | hk1)
      · exact hfr k (by rw [List.map_append]; exact List.mem_append_right _ hk) hk1
      · exact hnd.2.2 hk1 hk
    rw [ih (r ++ (bucketFn c).filterMap (specEntryOfPath cb conv di))
      (fun c' hc' => hall c' (List.mem_cons_of_mem _ hc')) hnd.2.1 hfr']
    simp

theorem gvGo_eq_spec (st : MonState) (cats : List Category)
    (conv : Option (String → Value → Value)) :
    ∀ (l : List (String × Service)) (r : List (String × Value)),
    (∀ nv ∈ l, get_values_for_service st cats nv.1 conv =
      .ok (getValuesForServiceSpec st cats nv.1 conv)) →
    ((l.flatMap fun nv => getValuesForServiceSpec st cats nv.1 conv).map Prod.fst).Nodup →
    (∀ k ∈ (l.flatMap fun nv => getValuesForServiceSpec st cats nv.1 conv).map Prod.fst,
      k ∉ r.map Prod.fst) →
    gvGo st cats conv l r =
      .ok (r ++ l.flatMap fun nv => getValuesForServiceSpec st cats nv.1 conv) := by
  intro l
  induction l with
  | nil => intro r _ _ _; simp [gvGo]
  | cons hd t ih =>
    intro r hall hnd hfr
    obtain ⟨n, svc⟩ := hd
    rw [List.flatMap_cons] at hnd hfr ⊢
    rw [List.map_append, List.nodup_append] at hnd
    have hhd := hall (n, svc) (List.mem_cons_self _ _)
    simp only [gvGo, hhd]
    rw [foldl_updateA_append (getValuesForServiceSpec st cats n conv) r hnd.1
      (fun k hk => hfr k (by rw [List.map_append]; exact List.mem_append_left _ hk))]
    have hfr' : ∀ k ∈ (t.flatMap fun nv =>
        getValuesForServiceSpec st cats nv.1 conv).map Prod.fst,
        k ∉ (r ++ getValuesForServiceSpec st cats n conv).map Prod.fst := by
      intro k hk
      rw [List.map_append, List.mem_append]
      rintro (hk1 | hk1)
      · exact hfr k (by rw [List.map_append]; exact List.mem_append_right _ hk) hk1
      · exact hnd.2.2 hk1 hk
    rw [ih (r ++ getValuesForServiceSpec st cats n conv)
      (fun nv hnv => hall nv (List.mem_cons_of_mem _ hnv)) hnd.2.1 hfr']
    simp

/-- C8: `get_values` (and `get_values_for_service`) return exactly the
entries the spec describes: over tracked services, the paths of the
buckets whose category is in the filter, with null cached values
omitted, the optional converter applied (keyed by the path's code)
before the configured rounding, each entry keyed `"code[deviceInstance]"`.
Stated as equality of the dict-building loops with the spec-side
comprehension `getValuesSpec`/`getValuesForServiceSpec`, under the
spec's own side conditions: generated keys are unique ("codes are
unique per device-instance, which the Schema is expected to
guarantee"), dict keys of `items` are unique, and values reaching
Python's `round` are numeric. -/
theorem get_values_matches_spec (st : MonState) (cats : List Category)
    (conv : Option (String → Value → Value))
    (hitemsN : (st.items.map Prod.fst).Nodup)
    (hround : roundSafeAllB st cats conv = true)
    (hkeys : ((getValuesSpec st cats conv).map Prod.fst).Nodup) :
    get_values st cats conv = .ok (getValuesSpec st cats conv) ∧
    ∀ nv ∈ st.items, get_values_for_service st cats nv.1 conv =
      .ok (getValuesForServiceSpec st cats nv.1 conv) := by
  unfold roundSafeAllB at hround
  have hkeys' := hkeys
  rw [getValuesSpec, map_fst_flatMap] at hkeys'
  have hper : ∀ nv ∈ st.items, get_values_for_service st cats nv.1 conv =
      .ok (getValuesForServiceSpec st cats nv.1 conv) := by
    intro nv hnv
    obtain ⟨n, svc⟩ := nv
    have hsvc : lookupA st.items n = some svc :=
      lookupA_of_mem_nodup st.items hitemsN hnv
    have hspec : getValuesForServiceSpec st cats n conv =
        cats.flatMap fun c => (svc.bucket c).filterMap
          (specEntryOfPath (cacheLookup st svc) conv svc.deviceInstance) := by
      simp [getValuesForServiceSpec, hsvc]
    have hr1 : serviceRoundOkB st cats conv svc = true := by
      simpa using List.all_eq_true.mp hround (n, svc) hnv
    have hr2 : ∀ c ∈ cats, ∀ p ∈ svc.bucket c,
        pathRoundOkB (cacheLookup st svc) conv p = true := by
      intro c hc p hp
      unfold serviceRoundOkB at hr1
      exact List.all_eq_true.mp (List.all_eq_true.mp hr1 c hc) p hp
    have hnodup : ((cats.flatMap fun c => (svc.bucket c).filterMap
        (specEntryOfPath (cacheLookup st svc) conv svc.deviceInstance)).map
        Prod.fst).Nodup := by
      rw [← hspec]
      exact nodup_of_mem_flatMap
        (fun nv => (getValuesForServiceSpec st cats nv.1 conv).map Prod.fst)
        st.items hkeys' (n, svc) hnv
    have hrun := processCats_eq_spec (cacheLookup st svc) conv svc.deviceInstance
      svc.bucket cats [] hr2 hnodup (by intro k _ hk; simp at hk)
    simp only [get_values_for_service, hsvc, hspec]
    simpa using hrun
  refine ⟨?_, hper⟩
  have hrun := gvGo_eq_spec st cats conv st.items [] hper
    (by rw [getValuesSpec] at hkeys; exact hkeys)
    (by intro k _ hk; simp at hk)
  simp only [get_values, getValuesSpec]
  simpa using hrun

/-- C8 witness: the spec §8 scenario — one tracked battery service with
cached `/Soc = 42` in category `onIntervalAlways`, device instance 2 —
where `get_values(["onIntervalAlways"])` is exactly `{"soc[2]": 42}`. -/
theorem get_values_matches_spec_witness :
    get_values stAfterSucc [Category.onIntervalAlways] none =
      .ok (getValuesSpec stAfterSucc [Category.onIntervalAlways] none) ∧
    getValuesSpec stAfterSucc [Category.onIntervalAlways] none =
      [("soc[2]", Value.VInt 42)] :=
  ⟨(get_values_matches_spec stAfterSucc [Category.onIntervalAlways] none
      (by decide) (by decide) (by decide)).1,
   by decide⟩

end DbusMonitor
